import Mathlib

/-!
Verification development for the `new-eval-backend` evaluation pipeline.

The Python sources under `app/` are shallowly embedded below: JSON-like
dynamic values become the inductive `JVal`; Python dicts become ordered
association lists with replace-on-insert semantics; Cosmos DB containers
become lists of documents (with an abstract `Container` interface where
operation failure matters); exceptions become `Except` values; wall-clock
reads become explicit `now` parameters; external collaborators (the model
gateway, `json.loads`, the embedding service) become function parameters.
Every definition mirrors one function of the source; theorems about the
pipeline's documented properties follow at the end of the file.
-/

/-- A JSON-like dynamic value, as produced by `json.loads` and passed around
the Python code.  Numbers are modelled as rationals (covering both Python
ints and floats); objects are ordered key/value lists, mirroring Python
dict insertion order. -/
inductive JVal where
  | str (s : String)
  | num (q : Rat)
  | bool (b : Bool)
  | null
  | arr (xs : List JVal)
  | obj (fields : List (String × JVal))

mutual

/-- Boolean equality on `JVal` (nested induction, so written by hand). -/
def jvalBeq : JVal → JVal → Bool
  | JVal.str a, JVal.str b => a == b
  | JVal.num a, JVal.num b => a == b
  | JVal.bool a, JVal.bool b => a == b
  | JVal.null, JVal.null => true
  | JVal.arr xs, JVal.arr ys => jvalBeqL xs ys
  | JVal.obj fs, JVal.obj gs => jvalBeqF fs gs
  | _, _ => false

/-- Boolean equality on `JVal` lists. -/
def jvalBeqL : List JVal → List JVal → Bool
  | [], [] => true
  | x :: xs, y :: ys => jvalBeq x y && jvalBeqL xs ys
  | _, _ => false

/-- Boolean equality on `JVal` object field lists. -/
def jvalBeqF : List (String × JVal) → List (String × JVal) → Bool
  | [], [] => true
  | (k, v) :: xs, (l, w) :: ys => k == l && jvalBeq v w && jvalBeqF xs ys
  | _, _ => false

end

mutual

theorem jvalBeq_iff : ∀ a b : JVal, jvalBeq a b = true ↔ a = b
  | JVal.str a, JVal.str b => by simp [jvalBeq]
  | JVal.num a, JVal.num b => by simp [jvalBeq]
  | JVal.bool a, JVal.bool b => by simp [jvalBeq]
  | JVal.null, JVal.null => by simp [jvalBeq]
  | JVal.arr xs, JVal.arr ys => by
      simpa [jvalBeq] using jvalBeqL_iff xs ys
  | JVal.obj fs, JVal.obj gs => by
      simpa [jvalBeq] using jvalBeqF_iff fs gs
  | JVal.str _, JVal.num _ => by simp [jvalBeq]
  | JVal.str _, JVal.bool _ => by simp [jvalBeq]
  | JVal.str _, JVal.null => by simp [jvalBeq]
  | JVal.str _, JVal.arr _ => by simp [jvalBeq]
  | JVal.str _, JVal.obj _ => by simp [jvalBeq]
  | JVal.num _, JVal.str _ => by simp [jvalBeq]
  | JVal.num _, JVal.bool _ => by simp [jvalBeq]
  | JVal.num _, JVal.null => by simp [jvalBeq]
  | JVal.num _, JVal.arr _ => by simp [jvalBeq]
  | JVal.num _, JVal.obj _ => by simp [jvalBeq]
  | JVal.bool _, JVal.str _ => by simp [jvalBeq]
  | JVal.bool _, JVal.num _ => by simp [jvalBeq]
  | JVal.bool _, JVal.null => by simp [jvalBeq]
  | JVal.bool _, JVal.arr _ => by simp [jvalBeq]
  | JVal.bool _, JVal.obj _ => by simp [jvalBeq]
  | JVal.null, JVal.str _ => by simp [jvalBeq]
  | JVal.null, JVal.num _ => by simp [jvalBeq]
  | JVal.null, JVal.bool _ => by simp [jvalBeq]
  | JVal.null, JVal.arr _ => by simp [jvalBeq]
  | JVal.null, JVal.obj _ => by simp [jvalBeq]
  | JVal.arr _, JVal.str _ => by simp [jvalBeq]
  | JVal.arr _, JVal.num _ => by simp [jvalBeq]
  | JVal.arr _, JVal.bool _ => by simp [jvalBeq]
  | JVal.arr _, JVal.null => by simp [jvalBeq]
  | JVal.arr _, JVal.obj _ => by simp [jvalBeq]
  | JVal.obj _, JVal.str _ => by simp [jvalBeq]
  | JVal.obj _, JVal.num _ => by simp [jvalBeq]
  | JVal.obj _, JVal.bool _ => by simp [jvalBeq]
  | JVal.obj _, JVal.null => by simp [jvalBeq]
  | JVal.obj _, JVal.arr _ => by simp [jvalBeq]

theorem jvalBeqL_iff : ∀ xs ys : List JVal, jvalBeqL xs ys = true ↔ xs = ys
  | [], [] => by simp [jvalBeqL]
  | x :: xs, y :: ys => by
      simp [jvalBeqL, Bool.and_eq_true, jvalBeq_iff x y, jvalBeqL_iff xs ys]
  | [], _ :: _ => by simp [jvalBeqL]
  | _ :: _, [] => by simp [jvalBeqL]

theorem jvalBeqF_iff : ∀ fs gs : List (String × JVal),
    jvalBeqF fs gs = true ↔ fs = gs
  | [], [] => by simp [jvalBeqF]
  | (k, v) :: fs, (l, w) :: gs => by
      simp [jvalBeqF, Bool.and_eq_true, jvalBeq_iff v w, jvalBeqF_iff fs gs,
        Prod.ext_iff, and_assoc]
  | [], _ :: _ => by simp [jvalBeqF]
  | _ :: _, [] => by simp [jvalBeqF]

end

instance : DecidableEq JVal := fun a b =>
  decidable_of_iff (jvalBeq a b = true) (jvalBeq_iff a b)

/-- Python dict lookup `d.get(k)`: the value of the first (and, for dicts
built by `dinsert`, only) binding of `k`. -/
def dget? {α : Type} (d : List (String × α)) (k : String) : Option α :=
  (d.find? (fun kv => kv.1 = k)).map (fun kv => kv.2)

/-- Python dict assignment `d[k] = v`: replace the binding in place if the
key exists, otherwise append it (dict insertion order). -/
def dinsert {α : Type} (d : List (String × α)) (k : String) (v : α) :
    List (String × α) :=
  if (d.find? (fun kv => kv.1 = k)).isSome then
    d.map (fun kv => if kv.1 = k then (k, v) else kv)
  else
    d ++ [(k, v)]

/-- The keys of a dict, in order. -/
def dkeys {α : Type} (d : List (String × α)) : List String :=
  d.map (fun kv => kv.1)

/-- Characters kept verbatim by `CosmosService._sanitize_id`
(`re.sub(r"[^a-zA-Z0-9-_]", "-", raw_id)` keeps letters, digits, `-`, `_`). -/
def sanitizeKeep (c : Char) : Bool :=
  (('a' ≤ c ∧ c ≤ 'z') ∨ ('A' ≤ c ∧ c ≤ 'Z') ∨ ('0' ≤ c ∧ c ≤ '9') ∨
    c = '-' ∨ c = '_')

/-- `CosmosService._sanitize_id`: every character outside
`[a-zA-Z0-9-_]` is replaced by `-`. -/
def sanitizeId (s : String) : String :=
  String.mk (s.data.map (fun c => if sanitizeKeep c then c else '-'))

/-- Python `a + b` / `a += b` on dynamic values: numeric addition (bools are
ints in Python), string concatenation, and a `TypeError` otherwise. -/
def pyAddJ : JVal → JVal → Except String JVal
  | JVal.num a, JVal.num b => Except.ok (JVal.num (a + b))
  | JVal.num a, JVal.bool b => Except.ok (JVal.num (a + (if b then 1 else 0)))
  | JVal.bool a, JVal.num b => Except.ok (JVal.num ((if a then 1 else 0) + b))
  | JVal.bool a, JVal.bool b =>
      Except.ok (JVal.num ((if a then 1 else 0) + (if b then 1 else 0)))
  | JVal.str a, JVal.str b => Except.ok (JVal.str (a ++ b))
  | _, _ => Except.error "TypeError"

/-! ## Conversation threads container (`CosmosService.save_conversation_message`) -/

/-- One entry of a thread document's `messages` array. -/
structure PyMsg where
  role : String
  content : JVal
  timestamp : Nat
  tokenCount : JVal
deriving DecidableEq

/-- The `metadata` object of a thread document. -/
structure ThreadMeta where
  tokenCount : JVal
  lastUpdated : Nat
  promptTokens : JVal
  completionTokens : JVal
deriving DecidableEq

/-- A document of the `threads` container (partition key `/modelId`). -/
structure ThreadDoc where
  id : String
  modelId : String
  created : Nat
  messages : List PyMsg
  metadata : ThreadMeta
deriving DecidableEq

/-- The `threads` container contents. -/
abbrev ThreadStore := List ThreadDoc

/-- The status dict returned by `CosmosService.save_conversation_message`
(`status` field of the returned dict). -/
inductive ConvSaveStatus where
  | updated
  | created
  | duplicateSkipped
  | errorStatus (msg : String)
deriving DecidableEq

/-- `read_item(item=full_id, partition_key=model_id)` on the threads
container: the stored document whose `id` and partition key both match. -/
def threadRead? (st : ThreadStore) (fullId modelId : String) : Option ThreadDoc :=
  st.find? (fun d => d.id == fullId && d.modelId == modelId)

/-- `replace_item(item=full_id, body=item)` on the threads container. -/
def threadReplace (st : ThreadStore) (fullId modelId : String)
    (doc : ThreadDoc) : ThreadStore :=
  st.map (fun d => if d.id == fullId && d.modelId == modelId then doc else d)

/-- `CosmosService.save_conversation_message(model_id, thread_id, role,
content, token_count)` at wall-clock time `now`.  Mirrors the source: read
the `(model_id, sanitized thread_id)` document; if its last message (of any
role) has content equal to the new content and the new role is
`"assistant"`, skip as a duplicate; otherwise append a message and update
the metadata token counters (a `TypeError` in `+=` is caught by the
function's `except` and reported as an error status, with nothing
persisted); if the document does not exist, create it. -/
def save_conversation_message (st : ThreadStore) (model_id thread_id role : String)
    (content : JVal) (token_count : JVal) (now : Nat) :
    ConvSaveStatus × ThreadStore :=
  let full_id := model_id ++ "-" ++ sanitizeId thread_id
  match threadRead? st full_id model_id with
  | some item =>
    -- `if item["messages"] and item["messages"][-1]["content"] == content
    --  and role == "assistant"` (the guard inspects the last message of the
    -- thread regardless of that message's role)
    if (item.messages.getLast?.any (fun m => m.content == content)) &&
        (role == "assistant") then
      (ConvSaveStatus.duplicateSkipped, st)
    else
      match pyAddJ item.metadata.tokenCount token_count with
      | Except.error m => (ConvSaveStatus.errorStatus m, st)
      | Except.ok tk =>
        let updPrompt :=
          if role = "user" then pyAddJ item.metadata.promptTokens token_count
          else Except.ok item.metadata.promptTokens
        let updCompl :=
          if role = "user" then Except.ok item.metadata.completionTokens
          else pyAddJ item.metadata.completionTokens token_count
        match updPrompt, updCompl with
        | Except.ok pt, Except.ok ct =>
          let doc : ThreadDoc :=
            { item with
              messages := item.messages ++
                [⟨role, content, now, token_count⟩],
              metadata := ⟨tk, now, pt, ct⟩ }
          (ConvSaveStatus.updated, threadReplace st full_id model_id doc)
        | Except.error m, _ => (ConvSaveStatus.errorStatus m, st)
        | _, Except.error m => (ConvSaveStatus.errorStatus m, st)
  | none =>
    let doc : ThreadDoc :=
      { id := full_id, modelId := model_id, created := now,
        messages := [⟨role, content, now, token_count⟩],
        metadata :=
          ⟨token_count, now,
            (if role = "user" then token_count else JVal.num 0),
            (if role = "assistant" then token_count else JVal.num 0)⟩ }
    (ConvSaveStatus.created, st ++ [doc])

/-! ## Planner fan-out (`PlannerAgent.run`) -/

/-- `models.mcp_models.PlannerOutput`: one model's structured completion.
`content : str`, `response_time : float`, `metrics : Dict[str, Any]`,
`safety : Optional[Dict]` (kept as a `JVal`, `null` standing for `None`). -/
structure PlannerOutput where
  model_id : String
  content : String
  response_time : Rat
  metrics : List (String × JVal)
  safety : JVal
deriving DecidableEq

/-- The error-sentinel completion built by `PlannerAgent.run`'s `except`
branch for a model whose call raised `e`:
`content = "[ERROR] " + str(e)`, `response_time = 0.0`, `metrics = {}`,
`safety = None`. -/
def plannerSentinel (model_id : String) (e : String) : PlannerOutput :=
  { model_id := model_id, content := "[ERROR] " ++ e, response_time := 0,
    metrics := [], safety := JVal.null }

/-- The data the `try` block of `PlannerAgent.run` extracts for one model
before the Cosmos side effect: completion content, metrics dict, safety,
latency (`metrics.get("responseTime", 0.0)`) and token count
(`metrics.get("totalTokens", 0)`). -/
structure PlannerParsed where
  content : JVal
  metrics : List (String × JVal)
  safety : JVal
  latency : JVal
  totalTokens : JVal

/-- The part of `PlannerAgent.run`'s `try` block up to the `responseTime`
lookup: invoke the CompletionPlugin (`invoke`, the gateway oracle, returns
the raw result string or raises), `json.loads` it (`jloads`, the stdlib
parser oracle, `none` standing for `JSONDecodeError`), then read
`content` / `metrics` / `safety` off the parsed object (an `AttributeError`
if the parse result is not an object, a `TypeError` at `metrics.get` if
`metrics` is not an object). -/
def plannerParse (invoke : String → Except String String)
    (jloads : String → Option JVal) (model_id : String) :
    Except String PlannerParsed :=
  match invoke model_id with
  | Except.error e => Except.error e
  | Except.ok result_str =>
    match jloads result_str with
    | none => Except.error "JSONDecodeError"
    | some parsed =>
      match parsed with
      | JVal.obj fields =>
        let content := (dget? fields "content").getD (JVal.str "")
        let metricsJ := (dget? fields "metrics").getD (JVal.obj [])
        let safety := (dget? fields "safety").getD JVal.null
        match metricsJ with
        | JVal.obj metrics =>
          Except.ok
            { content := content, metrics := metrics, safety := safety,
              latency := (dget? metrics "responseTime").getD (JVal.num 0),
              totalTokens := (dget? metrics "totalTokens").getD (JVal.num 0) }
        | _ => Except.error "TypeError"
      | _ => Except.error "AttributeError"

/-- Pydantic validation of the `PlannerOutput(...)` construction: `content`
must be a string, `response_time` a number, `safety` an object or `None`;
a mismatch raises a `ValidationError` (caught by the same `except`). -/
def plannerValidate (model_id : String) (p : PlannerParsed) :
    Except String PlannerOutput :=
  match p.content, p.latency with
  | JVal.str c, JVal.num q =>
    match p.safety with
    | JVal.obj _ =>
      Except.ok
        { model_id := model_id, content := c, response_time := q,
          metrics := p.metrics, safety := p.safety }
    | JVal.null =>
      Except.ok
        { model_id := model_id, content := c, response_time := q,
          metrics := p.metrics, safety := JVal.null }
    | _ => Except.error "ValidationError"
  | _, _ => Except.error "ValidationError"

/-- One iteration of `PlannerAgent.run`'s loop for `model_id`: run the
`try` block (gateway call, JSON parse, Cosmos side effect via
`save_conversation_message`, `PlannerOutput` construction); on any raise
the `except` branch stores the sentinel completion instead.  The
conversation write happens between the parse and the pydantic validation,
exactly as in the source, so a validation failure still leaves the saved
message in the store. -/
def plannerStep (invoke : String → Except String String)
    (jloads : String → Option JVal) (thread_id : String) (now : Nat)
    (st : ThreadStore) (model_id : String) : PlannerOutput × ThreadStore :=
  match plannerParse invoke jloads model_id with
  | Except.error e => (plannerSentinel model_id e, st)
  | Except.ok p =>
    let saved := save_conversation_message st model_id thread_id "assistant"
      p.content p.totalTokens now
    match plannerValidate model_id p with
    | Except.ok out => (out, saved.2)
    | Except.error e => (plannerSentinel model_id e, saved.2)

/-- The loop of `PlannerAgent.run` over the requested models, carrying the
`completions` dict and the thread store. -/
def plannerRunAux (invoke : String → Except String String)
    (jloads : String → Option JVal) (thread_id : String) (now : Nat) :
    List (String × PlannerOutput) → List String → ThreadStore →
    List (String × PlannerOutput) × ThreadStore
  | acc, [], st => (acc, st)
  | acc, m :: ms, st =>
    let step := plannerStep invoke jloads thread_id now st m
    plannerRunAux invoke jloads thread_id now (dinsert acc m step.1) ms step.2

/-- `PlannerAgent.run(models, prompt, session_id, mcp_thread_id, ...)`:
iterate over the requested model identifiers, aggregating one
`PlannerOutput` per model into the `completions` dict. -/
def plannerRun (invoke : String → Except String String)
    (jloads : String → Option JVal) (thread_id : String) (now : Nat)
    (models : List String) (st : ThreadStore) :
    List (String × PlannerOutput) × ThreadStore :=
  plannerRunAux invoke jloads thread_id now [] models st

/-! ## Event dispatch (`EvaluationOrchestrator.execute`, step 2) -/

/-- One entry of the `aggregated_responses` mapping put on every event:
only the completion's `content` and `metrics` are copied. -/
structure RespEntry where
  content : String
  metrics : List (String × JVal)
deriving DecidableEq

/-- The Event Grid payload built per agent by `EvaluationOrchestrator.execute`. -/
structure EventPayload where
  agent : String
  session_id : String
  thread_id : String
  use_case_id : String
  prompt : String
  responses : List (String × RespEntry)
  timestamp : String
deriving DecidableEq

/-- `aggregated_responses = {model_id: {"content": ..., "metrics": ...}}`
built from the planner output. -/
def aggregatedResponses (planner_output : List (String × PlannerOutput)) :
    List (String × RespEntry) :=
  planner_output.map (fun kv => (kv.1, ⟨kv.2.content, kv.2.metrics⟩))

/-- Step 2 of `EvaluationOrchestrator.execute`: the three event payloads
published for one completed round, in source order
`["reflection", "evaluator", "judge"]`, each carrying the same
`aggregated_responses` mapping. -/
def orchestratorEvents (planner_output : List (String × PlannerOutput))
    (session_id thread_id use_case_id prompt timestamp : String) :
    List EventPayload :=
  ["reflection", "evaluator", "judge"].map (fun agent =>
    { agent := agent, session_id := session_id, thread_id := thread_id,
      use_case_id := use_case_id, prompt := prompt,
      responses := aggregatedResponses planner_output,
      timestamp := timestamp })

/-! ## Aggregation store (`agentsresults` container) -/

/-- A document of the `agentsresults` container (partition key
`/session_id`).  `use_case_id` and `timestamp` are dynamic values because
the two writers of this container store different shapes there
(`save_agent_results` stores an integer timestamp, `process_agent_event`
an ISO string); `lastUpdated` is only set by `save_agent_results`. -/
structure AgentDoc where
  id : String
  session_id : String
  thread_id : String
  agent : String
  use_case_id : JVal
  results : JVal
  timestamp : JVal
  lastUpdated : Option JVal
deriving DecidableEq

/-- Outcome of a single Cosmos SDK container operation: success, a
`CosmosResourceNotFoundError`, or any other raised error. -/
inductive CosRes (α : Type) where
  | ok (a : α)
  | notFound
  | err (msg : String)
deriving DecidableEq

/-- The operations the code performs against the `agentsresults` container,
abstracted over the container state `σ` so that both the reliable
in-memory semantics and failure injection are instances. -/
structure Container (σ : Type) where
  readItem : σ → String → String → CosRes AgentDoc
  replaceItem : σ → String → AgentDoc → CosRes Unit × σ
  createItem : σ → AgentDoc → CosRes Unit × σ
  queryItems : σ → String → String → Option String → CosRes (List AgentDoc)

/-- The `agentsresults` container contents under reliable semantics. -/
abbrev AgentStore := List AgentDoc

/-- Key match used by point operations: document `id` plus partition key
(`session_id`). -/
def agentKeyMatch (doc_id session_id : String) (d : AgentDoc) : Bool :=
  d.id == doc_id && d.session_id == session_id

/-- Reliable in-memory semantics of the Cosmos container: `read_item`
finds the document by id and partition key (404 otherwise), `replace_item`
overwrites it in place, `create_item` appends and signals a conflict if
the key already exists, `query_items` filters by `session_id`, `agent`
and, when supplied, `thread_id` — the `WHERE` clause of
`CosmosService.get_agent_result`. -/
def goodContainer : Container AgentStore :=
  { readItem := fun st doc_id pk =>
      match st.find? (agentKeyMatch doc_id pk) with
      | some d => CosRes.ok d
      | none => CosRes.notFound,
    replaceItem := fun st doc_id doc =>
      (CosRes.ok (), st.map (fun d =>
        if agentKeyMatch doc_id doc.session_id d then doc else d)),
    createItem := fun st doc =>
      if (st.find? (agentKeyMatch doc.id doc.session_id)).isSome then
        (CosRes.err "Conflict", st)
      else
        (CosRes.ok (), st ++ [doc]),
    queryItems := fun st session_id agent thread_id =>
      CosRes.ok (st.filter (fun d =>
        d.session_id == session_id && d.agent == agent &&
          (match thread_id with
           | some t => d.thread_id == t
           | none => true))) }

/-- A container on which every operation raises — used to model a store
outage at the boundary of `CosmosService`. -/
def failContainer (msg : String) : Container Unit :=
  { readItem := fun _ _ _ => CosRes.err msg,
    replaceItem := fun _ _ _ => (CosRes.err msg, ()),
    createItem := fun _ _ => (CosRes.err msg, ()),
    queryItems := fun _ _ _ _ => CosRes.err msg }

/-- The status dict returned by `CosmosService.save_agent_results`. -/
inductive AgentSaveStatus where
  | updated
  | created
  | errorStatus (msg : String)
deriving DecidableEq

/-- `CosmosService.save_agent_results(session_id, thread_id, agent,
use_case_id, results)` at wall-clock time `now`: build the document with
`id = f"{agent}-{sanitized session_id}"`; if `read_item` finds an existing
record, keep its original `timestamp` and `replace_item`; on a 404,
`create_item`; any other raise is caught and reported as an error status
dict. -/
def save_agent_results {σ : Type} (C : Container σ) (st : σ)
    (session_id thread_id agent use_case_id : String) (results : JVal)
    (now : Nat) : AgentSaveStatus × σ :=
  let doc_id := agent ++ "-" ++ sanitizeId session_id
  let doc : AgentDoc :=
    { id := doc_id, session_id := session_id, thread_id := thread_id,
      agent := agent, use_case_id := JVal.str use_case_id,
      results := results, timestamp := JVal.num now,
      lastUpdated := some (JVal.num now) }
  match C.readItem st doc_id session_id with
  | CosRes.ok existing =>
    let doc := { doc with timestamp := existing.timestamp }
    match C.replaceItem st doc_id doc with
    | (CosRes.ok _, st') => (AgentSaveStatus.updated, st')
    | (CosRes.err m, st') => (AgentSaveStatus.errorStatus m, st')
    | (CosRes.notFound, st') => (AgentSaveStatus.errorStatus "NotFound", st')
  | CosRes.notFound =>
    match C.createItem st doc with
    | (CosRes.ok _, st') => (AgentSaveStatus.created, st')
    | (CosRes.err m, st') => (AgentSaveStatus.errorStatus m, st')
    | (CosRes.notFound, st') => (AgentSaveStatus.errorStatus "NotFound", st')
  | CosRes.err m => (AgentSaveStatus.errorStatus m, st)

/-- `CosmosService.get_agent_result(session_id, agent, thread_id)`: query
by session, agent and optional thread; return the first item, `None` when
the query returns nothing — and also `None` when the query raises, because
the `except` branch returns `None`. -/
def get_agent_result {σ : Type} (C : Container σ) (st : σ)
    (session_id agent : String) (thread_id : Option String) :
    Option AgentDoc :=
  match C.queryItems st session_id agent thread_id with
  | CosRes.ok items => items.head?
  | CosRes.notFound => none
  | CosRes.err _ => none

/-- Python truthiness of the optional `results` payloads collected by the
results endpoint (`None`, `{}`, `""`, `0`, `[]`, `False` are falsy). -/
def pyTruthy : Option JVal → Bool
  | none => false
  | some (JVal.str s) => s ≠ ""
  | some (JVal.num q) => q ≠ 0
  | some (JVal.bool b) => b
  | some JVal.null => false
  | some (JVal.arr xs) => xs ≠ []
  | some (JVal.obj fs) => fs ≠ []

/-- Result of the `GET /{session_id}` endpoint: either a JSON body or an
`HTTPException`. -/
inductive HttpOutcome where
  | ok (body : List (String × Option JVal))
  | httpError (code : Nat) (detail : String)
deriving DecidableEq

/-- The per-agent payloads collected by
`agents_results.get_all_agent_results` before its final truthiness check:
for each agent kind, the found record's `results` or `None`. -/
def collectAgentResults {σ : Type} (C : Container σ) (st : σ)
    (session_id : String) (thread_id : Option String) :
    List (String × Option JVal) :=
  ["evaluator", "judge", "reflection"].map (fun agent =>
    (agent, (get_agent_result C st session_id agent thread_id).map
      (fun d => d.results)))

/-- `agents_results.get_all_agent_results(session_id, thread_id)`: fetch
the three agent kinds, substituting `None` for missing ones; then
`if not any(results.values())` raise HTTP 404, else return the mapping. -/
def get_all_agent_results {σ : Type} (C : Container σ) (st : σ)
    (session_id : String) (thread_id : Option String) : HttpOutcome :=
  let results := collectAgentResults C st session_id thread_id
  if results.all (fun kv => !(pyTruthy kv.2)) then
    HttpOutcome.httpError 404 "No agent results found for this session."
  else
    HttpOutcome.ok results

/-! ## Event consumer (`background.event_processor.process_agent_event`) -/

/-- The fields `process_agent_event` reads off the incoming Event Grid
payload with `event.get(...)` (absent keys give `None`). -/
structure AgentEvent where
  agent : Option String
  session_id : Option String
  thread_id : Option String
  use_case_id : Option String
  prompt : Option String
  responses : Option (List (String × JVal))
  timestamp : Option String
deriving DecidableEq

/-- Python truthiness of an optional string (`None` and `""` are falsy). -/
def strTruthy : Option String → Bool
  | none => false
  | some s => s ≠ ""

/-- Control-flow outcome of one `process_agent_event` call: the early
return on missing fields, the early return on an unsupported agent kind,
normal completion, or the catch-all `except` that logs the exception. -/
inductive ProcOutcome where
  | completed
  | skippedMissing
  | unsupportedAgent
  | errorCaught (msg : String)
deriving DecidableEq

/-- `process_agent_event(event)`: validate the payload fields
(`use_case_id` and `timestamp` are not in the `all(...)` check), dispatch
to the agent branch (abstracted as the oracle `agentBlock`, which returns
the `aggregated_results` value or raises), then persist with
`create_item` — not with `CosmosService.save_agent_results` — on the
`agentsresults` container, under `id = f"{agent}-{session_id}"`.  Any
raise inside the `try` (including a Cosmos conflict on re-delivery) is
caught by the trailing `except` and only logged.  `nowStr` stands for
`time.strftime(...)`, the default timestamp. -/
def process_agent_event {σ : Type} (C : Container σ)
    (agentBlock : AgentEvent → Except String JVal) (nowStr : String)
    (st : σ) (ev : AgentEvent) : ProcOutcome × σ :=
  if !(strTruthy ev.agent && strTruthy ev.session_id &&
      strTruthy ev.thread_id && strTruthy ev.prompt &&
      (match ev.responses with
       | some rs => rs ≠ []
       | none => false : Bool)) then
    (ProcOutcome.skippedMissing, st)
  else
    let agent := ev.agent.getD ""
    let session_id := ev.session_id.getD ""
    if agent = "evaluator" ∨ agent = "judge" ∨ agent = "reflection" then
      match agentBlock ev with
      | Except.error m => (ProcOutcome.errorCaught m, st)
      | Except.ok aggregated_results =>
        let doc : AgentDoc :=
          { id := agent ++ "-" ++ session_id, session_id := session_id,
            thread_id := ev.thread_id.getD "",
            agent := agent,
            use_case_id :=
              (match ev.use_case_id with
               | some u => JVal.str u
               | none => JVal.null),
            results := aggregated_results,
            timestamp := JVal.str (ev.timestamp.getD nowStr),
            lastUpdated := none }
        match C.createItem st doc with
        | (CosRes.ok _, st') => (ProcOutcome.completed, st')
        | (CosRes.err m, st') => (ProcOutcome.errorCaught m, st')
        | (CosRes.notFound, st') => (ProcOutcome.errorCaught "NotFound", st')
    else
      (ProcOutcome.unsupportedAgent, st)

/-! ## Structured result parser (`JudgeAgent._extract_scores`) -/

/-- The `"` character (written via its code point so that embedded JSON
test strings stay readable). -/
def quoteChar : Char := Char.ofNat 34

/-- The `\` character. -/
def backslashChar : Char := Char.ofNat 92

/-- The opening-brace character. -/
def lbraceChar : Char := Char.ofNat 123

/-- The closing-brace character. -/
def rbraceChar : Char := Char.ofNat 125

/-- Python's `\s` / `str.isspace` over ASCII: space, tab, LF, CR, VT, FF. -/
def pyIsSpace (c : Char) : Bool :=
  c = ' ' ∨ c = Char.ofNat 9 ∨ c = Char.ofNat 10 ∨ c = Char.ofNat 13 ∨
    c = Char.ofNat 11 ∨ c = Char.ofNat 12

/-- Python `str.strip()`. -/
def stripChars (s : List Char) : List Char :=
  ((s.dropWhile pyIsSpace).reverse.dropWhile pyIsSpace).reverse

/-- Does `s` start with `pat`? -/
def startsWithL : List Char → List Char → Bool
  | [], _ => true
  | _ :: _, [] => false
  | p :: ps, c :: cs => p = c && startsWithL ps cs

/-- Python `s.split(pat, 1)`: the text before the first occurrence of
`pat` and the text after it, or `none` when `pat` does not occur
(which also decides Python's `pat in s`). -/
def splitFirst (pat : List Char) : List Char → Option (List Char × List Char)
  | [] => if pat.isEmpty then some ([], []) else none
  | c :: rest =>
    if startsWithL pat (c :: rest) then
      some ([], (c :: rest).drop pat.length)
    else
      match splitFirst pat rest with
      | some pr => some (c :: pr.1, pr.2)
      | none => none

/-- The regex `\{.*\}` with `re.DOTALL` used in STEP 3: it matches from the
first `{` that has a `}` somewhere after it, greedily up to the last `}` of
the text; `none` when there is no such span. -/
def braceSpan (s : List Char) : Option (List Char) :=
  match s.findIdx? (fun c => c = lbraceChar) with
  | none => none
  | some i =>
    match s.reverse.findIdx? (fun c => c = rbraceChar) with
    | none => none
    | some k =>
      let j := s.length - 1 - k
      if i < j then some ((s.drop i).take (j - i + 1)) else none

/-- STEP 3 of `_extract_scores`: if the text contains a fenced
```` ```json ```` block, the candidate is its inner content (an unclosed
fence leaves `json_content = ""`); otherwise the first `{...}` span found
by the regex is the candidate, and if neither exists the function returns
the empty result (`none` here). -/
def step3Candidate (s : List Char) : Option (List Char) :=
  match splitFirst "```json".data s with
  | some pr =>
    match splitFirst "```".data pr.2 with
    | some pr2 => some pr2.1
    | none => some []
  | none => braceSpan s

/-- Hex digit value. -/
def hexVal (c : Char) : Option Nat :=
  if '0' ≤ c ∧ c ≤ '9' then some (c.toNat - 48)
  else if 'a' ≤ c ∧ c ≤ 'f' then some (c.toNat - 87)
  else if 'A' ≤ c ∧ c ≤ 'F' then some (c.toNat - 55)
  else none

/-- Octal digit test. -/
def isOctal (c : Char) : Bool := '0' ≤ c ∧ c ≤ '7'

/-- Fuelled core of the `unicode_escape` codec used by
`_clean_json_string` (`json_str.encode().decode('unicode_escape')`):
recognised escape sequences are decoded, unknown escapes are kept
verbatim, and a truncated escape raises (`none`).  The fuel only bounds
recursion; callers pass `length + 1`, which is always sufficient because
every step consumes at least one character. -/
def unicodeEscapeF : Nat → List Char → Option (List Char)
  | 0, _ => none
  | _ + 1, [] => some []
  | fuel + 1, c :: rest =>
    if c = backslashChar then
      match rest with
      | [] => none
      | e :: rest2 =>
        if e = 'n' then (unicodeEscapeF fuel rest2).map (Char.ofNat 10 :: ·)
        else if e = 't' then (unicodeEscapeF fuel rest2).map (Char.ofNat 9 :: ·)
        else if e = 'r' then (unicodeEscapeF fuel rest2).map (Char.ofNat 13 :: ·)
        else if e = 'a' then (unicodeEscapeF fuel rest2).map (Char.ofNat 7 :: ·)
        else if e = 'b' then (unicodeEscapeF fuel rest2).map (Char.ofNat 8 :: ·)
        else if e = 'f' then (unicodeEscapeF fuel rest2).map (Char.ofNat 12 :: ·)
        else if e = 'v' then (unicodeEscapeF fuel rest2).map (Char.ofNat 11 :: ·)
        else if e = backslashChar then
          (unicodeEscapeF fuel rest2).map (backslashChar :: ·)
        else if e = quoteChar then
          (unicodeEscapeF fuel rest2).map (quoteChar :: ·)
        else if e = Char.ofNat 39 then
          (unicodeEscapeF fuel rest2).map (Char.ofNat 39 :: ·)
        else if e = Char.ofNat 10 then unicodeEscapeF fuel rest2
        else if e = 'x' then
          match rest2 with
          | h1 :: h2 :: rest3 =>
            match hexVal h1, hexVal h2 with
            | some a, some b =>
              (unicodeEscapeF fuel rest3).map (Char.ofNat (16 * a + b) :: ·)
            | _, _ => none
          | _ => none
        else if e = 'u' then
          match rest2 with
          | h1 :: h2 :: h3 :: h4 :: rest3 =>
            match hexVal h1, hexVal h2, hexVal h3, hexVal h4 with
            | some a, some b, some cc, some d =>
              (unicodeEscapeF fuel rest3).map
                (Char.ofNat (4096 * a + 256 * b + 16 * cc + d) :: ·)
            | _, _, _, _ => none
          | _ => none
        else if isOctal e then
          match rest2 with
          | d2 :: d3 :: rest3 =>
            if isOctal d2 ∧ isOctal d3 then
              (unicodeEscapeF fuel rest3).map
                (Char.ofNat (64 * (e.toNat - 48) + 8 * (d2.toNat - 48) +
                  (d3.toNat - 48)) :: ·)
            else if isOctal d2 then
              (unicodeEscapeF fuel (d3 :: rest3)).map
                (Char.ofNat (8 * (e.toNat - 48) + (d2.toNat - 48)) :: ·)
            else
              (unicodeEscapeF fuel (d2 :: d3 :: rest3)).map
                (Char.ofNat (e.toNat - 48) :: ·)
          | [d2] =>
            if isOctal d2 then
              (unicodeEscapeF fuel []).map
                (Char.ofNat (8 * (e.toNat - 48) + (d2.toNat - 48)) :: ·)
            else
              (unicodeEscapeF fuel [d2]).map (Char.ofNat (e.toNat - 48) :: ·)
          | [] => some [Char.ofNat (e.toNat - 48)]
        else
          (unicodeEscapeF fuel rest2).map (fun r => c :: e :: r)
    else
      (unicodeEscapeF fuel rest).map (c :: ·)

/-- `unicode_escape` decoding, `none` on a decode error. -/
def unicodeEscape (s : List Char) : Option (List Char) :=
  unicodeEscapeF (s.length + 1) s

/-- `JudgeAgent._clean_json_string`: drop a leading byte-order-mark-like or
whitespace character, strip, apply `unicode_escape` (a failure there is
caught and leaves the string unchanged), then trim everything before the
first `{`. -/
def cleanJsonChars (s : List Char) : List Char :=
  let s1 :=
    match s with
    | [] => []
    | c :: rest => if 127 < c.toNat ∨ pyIsSpace c then rest else c :: rest
  let s2 := stripChars s1
  let s3 := (unicodeEscape s2).getD s2
  if s3.head? = some lbraceChar then s3
  else
    match s3.findIdx? (fun c => c = lbraceChar) with
    | some i => s3.drop i
    | none => s3

/-- One attempt of the regex `"([^"]+)":\s*{` at the head of `s`: a quote,
a nonempty run of non-quote characters (the model id), `":`, optional
whitespace and an opening brace.  Returns the captured id and the text
after the match. -/
def matchHeaderAt (s : List Char) : Option (String × List Char) :=
  match s with
  | [] => none
  | c :: rest =>
    if c = quoteChar then
      let name := rest.takeWhile (fun x => x ≠ quoteChar)
      let rest2 := rest.dropWhile (fun x => x ≠ quoteChar)
      if name.isEmpty then none
      else
        match rest2 with
        | q :: colon :: rest3 =>
          if q = quoteChar ∧ colon = ':' then
            match rest3.dropWhile pyIsSpace with
            | b :: rest5 =>
              if b = lbraceChar then some (String.mk name, rest5) else none
            | [] => none
          else none
        | _ => none
    else none

/-- Numeric value of a digit run. -/
def natOfDigits (ds : List Char) : Nat :=
  ds.foldl (fun a c => 10 * a + (c.toNat - 48)) 0

/-- One attempt of the regex `"([^"]+)":\s*(\d+)` at the head of `s`:
a quoted nonempty key, a colon, optional whitespace and a nonempty digit
run (the integer score).  Returns the key, the value and the text after
the match. -/
def matchScoreAt (s : List Char) : Option (String × Nat × List Char) :=
  match s with
  | [] => none
  | c :: rest =>
    if c = quoteChar then
      let name := rest.takeWhile (fun x => x ≠ quoteChar)
      let rest2 := rest.dropWhile (fun x => x ≠ quoteChar)
      if name.isEmpty then none
      else
        match rest2 with
        | q :: colon :: rest3 =>
          if q = quoteChar ∧ colon = ':' then
            let rest4 := rest3.dropWhile pyIsSpace
            let digits := rest4.takeWhile Char.isDigit
            if digits.isEmpty then none
            else
              some (String.mk name, natOfDigits digits,
                rest4.drop digits.length)
          else none
        | _ => none
    else none

/-- Fuelled `re.finditer` scan with `matchHeaderAt`: collect
non-overlapping matches left to right (callers pass `length + 1` fuel,
always sufficient). -/
def scanHeadersF : Nat → List Char → List String
  | 0, _ => []
  | _ + 1, [] => []
  | fuel + 1, c :: rest =>
    match matchHeaderAt (c :: rest) with
    | some pr => pr.1 :: scanHeadersF fuel pr.2
    | none => scanHeadersF fuel rest

/-- Fuelled `re.finditer` scan with `matchScoreAt`. -/
def scanScoresF : Nat → List Char → List (String × Nat)
  | 0, _ => []
  | _ + 1, [] => []
  | fuel + 1, c :: rest =>
    match matchScoreAt (c :: rest) with
    | some pr => (pr.1, pr.2.1) :: scanScoresF fuel pr.2.2
    | none => scanScoresF fuel rest

/-- `re.finditer(r'"([^"]+)":\s*{', json_content)`: the discovered model
ids, in order. -/
def headerModels (content : List Char) : List String :=
  scanHeadersF (content.length + 1) content

/-- `re.finditer(r'"([^"]+)":\s*(\d+)', json_content)`: the discovered
key/integer pairs, in order. -/
def scorePairs (content : List Char) : List (String × Nat) :=
  scanScoresF (content.length + 1) content

/-- The five known judge dimensions. -/
def dimNames : List String :=
  ["personalization", "relevance", "fluency", "coherence", "creativity"]

/-- The `scores` dict built inside the strategy-3 loop: every
`"key": int` pair of the WHOLE candidate text whose key is one of the five
dimensions, later pairs overwriting earlier ones. -/
def dimScores (content : List Char) : List (String × Int) :=
  (scorePairs content).foldl
    (fun acc mv =>
      if mv.1 ∈ dimNames then dinsert acc mv.1 (Int.ofNat mv.2) else acc) []

/-- Strategy 3 (manual JSON reconstruction) of `_extract_scores`: for each
discovered model-id header, recompute `scores` by scanning the whole
candidate text and, when non-empty, assign it to that model. -/
def stage4 (content : List Char) : List (String × List (String × Int)) :=
  (headerModels content).foldl
    (fun acc model_id =>
      let scores := dimScores content
      if scores.isEmpty then acc else dinsert acc model_id scores) []

/-- Truncation toward zero, Python `int()` on a float. -/
def truncRat (q : Rat) : Int := if 0 ≤ q then ⌊q⌋ else ⌈q⌉

/-- Python `int()` on a string: optional surrounding whitespace, optional
sign, a nonempty digit run; anything else raises `ValueError`. -/
def pyIntOfChars (s : List Char) : Except String Int :=
  match stripChars s with
  | '-' :: ds =>
    if !ds.isEmpty && ds.all Char.isDigit then
      Except.ok (-(Int.ofNat (natOfDigits ds)))
    else Except.error "ValueError"
  | '+' :: ds =>
    if !ds.isEmpty && ds.all Char.isDigit then
      Except.ok (Int.ofNat (natOfDigits ds))
    else Except.error "ValueError"
  | ds =>
    if !ds.isEmpty && ds.all Char.isDigit then
      Except.ok (Int.ofNat (natOfDigits ds))
    else Except.error "ValueError"

/-- Python `int()` on a dynamic value. -/
def pyInt : JVal → Except String Int
  | JVal.num q => Except.ok (truncRat q)
  | JVal.bool b => Except.ok (if b then 1 else 0)
  | JVal.str s => pyIntOfChars s.data
  | _ => Except.error "TypeError"

/-- One validated judge entry as assembled in STEP 5 of
`_extract_scores`: the five dimensions read with default `0` and cast with
`int(...)`, and `reasons` read with default `{}`. -/
structure ScoreEntry where
  personalization : Int
  relevance : Int
  fluency : Int
  coherence : Int
  creativity : Int
  reasons : JVal
deriving DecidableEq

/-- STEP 5 validation of one model's `scores` object. -/
def validateEntry (scores : List (String × JVal)) : Except String ScoreEntry := do
  let p ← pyInt ((dget? scores "personalization").getD (JVal.num 0))
  let r ← pyInt ((dget? scores "relevance").getD (JVal.num 0))
  let f ← pyInt ((dget? scores "fluency").getD (JVal.num 0))
  let co ← pyInt ((dget? scores "coherence").getD (JVal.num 0))
  let cr ← pyInt ((dget? scores "creativity").getD (JVal.num 0))
  pure ⟨p, r, f, co, cr, (dget? scores "reasons").getD (JVal.obj [])⟩

/-- STEP 5 of `_extract_scores`: iterate over `parsed_json.items()`
(an `AttributeError` if the parsed value is not an object), skipping model
entries that are not themselves objects; an `int()` failure inside an
entry propagates (to be caught by the function's outer `except`). -/
def validateScores : JVal → Except String (List (String × ScoreEntry))
  | JVal.obj entries =>
    entries.foldlM
      (fun acc kv =>
        match kv.2 with
        | JVal.obj scores =>
          (validateEntry scores).map (fun e => dinsert acc kv.1 e)
        | _ => Except.ok acc) []
  | _ => Except.error "AttributeError"

/-- The body of `JudgeAgent._extract_scores` (everything inside its outer
`try`), over the content string and the `json.loads` oracle `jloads`
(`none` standing for `JSONDecodeError`): STEP 3 candidate extraction, then
strategy 1 (strip + parse), strategy 2 (aggressive cleanup + parse),
strategy 3 (manual regex reconstruction), then STEP 5 validation. -/
def extract_scores_run (jloads : String → Option JVal) (result_str : String) :
    Except String (List (String × ScoreEntry)) :=
  match step3Candidate result_str.data with
  | none => Except.ok []
  | some json_content =>
    match jloads (String.mk (stripChars json_content)) with
    | some parsed => validateScores parsed
    | none =>
      match jloads (String.mk (cleanJsonChars json_content)) with
      | some parsed => validateScores parsed
      | none =>
        let manual := stage4 json_content
        if manual.isEmpty then Except.ok []
        else
          validateScores (JVal.obj (manual.map (fun kv =>
            (kv.1, JVal.obj (kv.2.map (fun mv =>
              (mv.1, JVal.num (mv.2 : Rat))))))))

/-- `JudgeAgent._extract_scores` including its outer
`except json.JSONDecodeError` / `except Exception` handlers, both of which
return `{}`. -/
def extract_scores (jloads : String → Option JVal) (result_str : String) :
    Except String (List (String × ScoreEntry)) :=
  match extract_scores_run jloads result_str with
  | Except.ok r => Except.ok r
  | Except.error _ => Except.ok []

/-- The hypothesis of the total-parse-failure scenario: every stage of the
fallback chain fails on the input — either no candidate is found at all,
or neither parsing strategy succeeds on it and the manual reconstruction
recovers nothing. -/
def allStagesFail (jloads : String → Option JVal) (result_str : String) : Prop :=
  ∀ c, step3Candidate result_str.data = some c →
    jloads (String.mk (stripChars c)) = none ∧
    jloads (String.mk (cleanJsonChars c)) = none ∧
    stage4 c = []

/-! ## Semantic memory search (`MemoryPlugin.search_memory` +
`ReflectionAgent.run`) -/

/-- A document of the vector container
(`embeddings(semantic-memory)`).  Embedding vectors are modelled as
rational lists; `none` models a document with no `embedding` field. -/
structure VecDoc where
  id : String
  collection : Option String
  model_id : Option String
  thread_id : Option String
  text : String
  embedding : Option (List Rat)
deriving DecidableEq

/-- A search hit as assembled by `search_memory`: the document with its
`embedding` popped and a `similarity` attached. -/
structure ScoredItem where
  id : String
  collection : Option String
  model_id : Option String
  thread_id : Option String
  text : String
  similarity : Rat
deriving DecidableEq

/-- Round-half-to-even at integer precision (Python's `round`). -/
def roundHalfEven (x : Rat) : Int :=
  let f := ⌊x⌋
  let frac := x - f
  if frac < 1 / 2 then f
  else if 1 / 2 < frac then f + 1
  else if f % 2 = 0 then f else f + 1

/-- `round(score, 4)` as applied to each similarity before it is stored on
the item. -/
def round4 (x : Rat) : Rat := (roundHalfEven (x * 10000) : Rat) / 10000

/-- The scored item built for document `d` with raw similarity `sim`. -/
def scoredOf (d : VecDoc) (sim : Rat) : ScoredItem :=
  ⟨d.id, d.collection, d.model_id, d.thread_id, d.text, round4 sim⟩

/-- The result-processing loop of `search_memory`: walk the query results
in store order, skip items with a missing or empty embedding vector, score
the rest (`calcSim` is the oracle for
`embedding_service.calculate_similarity(query_embedding, vector)`), and
break as soon as `limit` items have been collected. -/
def scoredLoop (calcSim : List Rat → Rat) (limit : Nat) :
    List VecDoc → List ScoredItem → List ScoredItem
  | [], acc => acc
  | d :: rest, acc =>
    match d.embedding with
    | none => scoredLoop calcSim limit rest acc
    | some [] => scoredLoop calcSim limit rest acc
    | some v =>
      let acc2 := acc ++ [scoredOf d (calcSim v)]
      if limit ≤ acc2.length then acc2 else scoredLoop calcSim limit rest acc2

/-- Stable insertion for a descending sort on `similarity` (Python
`list.sort(key=..., reverse=True)` is stable: an earlier element stays
before later elements with an equal key). -/
def insertDesc (x : ScoredItem) : List ScoredItem → List ScoredItem
  | [] => [x]
  | y :: ys =>
    if x.similarity < y.similarity then y :: insertDesc x ys
    else x :: y :: ys

/-- Stable descending sort on `similarity`. -/
def sortDesc : List ScoredItem → List ScoredItem
  | [] => []
  | x :: xs => insertDesc x (sortDesc xs)

/-- `MemoryPlugin.search_memory(thread_id, query, limit)`: SQL-filter the
vector container by top-level `thread_id` (note: not by the
`model-memory-{model_id}` collection), collect at most `limit` scored
items in store order, sort those by descending similarity, and return the
first `limit` of them. -/
def search_memory (st : List VecDoc) (calcSim : List Rat → Rat)
    (thread_id : String) (limit : Nat) : List ScoredItem :=
  let items := st.filter (fun d => d.thread_id == some thread_id)
  let scored := scoredLoop calcSim limit items []
  (sortDesc scored).take limit

/-- The `relevant_items` filter of `ReflectionAgent.run`: the memory items
returned by `search_memory(thread_id=mcp_thread_id, query=prompt,
limit=str(top_k))` whose similarity is at least `min_relevance`. -/
def relevant_items (st : List VecDoc) (calcSim : List Rat → Rat)
    (mcp_thread_id : String) (top_k : Nat) (min_relevance : Rat) :
    List ScoredItem :=
  (search_memory st calcSim mcp_thread_id top_k).filter
    (fun it => min_relevance ≤ it.similarity)

/-- One line `f"[Memory][{idx + 1}] {item.get('text', '').strip()}"`. -/
def contextLine (idx : Nat) (it : ScoredItem) : String :=
  "[Memory][" ++ toString (idx + 1) ++ "] " ++ String.mk (stripChars it.text.data)

/-- The numbered context block `"\n\n".join(context_lines)`. -/
def numberedBlock (items : List ScoredItem) : String :=
  String.intercalate "\n\n" (items.enum.map (fun p => contextLine p.1 p.2))

/-- The context string returned by `ReflectionAgent.run` for one model of
the round (the Cosmos persistence side effect of the reflection result is
independent of the returned value and not needed here). -/
def reflection_context (st : List VecDoc) (calcSim : List Rat → Rat)
    (mcp_thread_id : String) (top_k : Nat) (min_relevance : Rat) : String :=
  numberedBlock (relevant_items st calcSim mcp_thread_id top_k min_relevance)

/-- The scored item with its raw (unrounded) similarity, used by the
spec-side definition below. -/
def scoredOfRaw (d : VecDoc) (sim : Rat) : ScoredItem :=
  ⟨d.id, d.collection, d.model_id, d.thread_id, d.text, sim⟩

/-- Modelled from the spec (for comparison with `reflection_context`, not
from the source): "retrieve up to `top_k` memory records scoped to that
model whose similarity to the query embedding is ≥ `min_relevance`,
ordered by descending similarity" — the `top_k` highest-similarity records
among ALL stored records of the model that qualify. -/
def claimed_relevant_items (st : List VecDoc) (calcSim : List Rat → Rat)
    (model_id : String) (top_k : Nat) (min_relevance : Rat) :
    List ScoredItem :=
  let scoredAll := (st.filter (fun d => d.model_id == some model_id)).filterMap
    (fun d => d.embedding.map (fun v => scoredOfRaw d (calcSim v)))
  let qualifying := scoredAll.filter (fun it => min_relevance ≤ it.similarity)
  (sortDesc qualifying).take top_k

/-- Modelled from the spec: the numbered context block over
`claimed_relevant_items` ("concatenate as a numbered context block (empty
string if none qualify)"). -/
def claimed_reflection_context (st : List VecDoc) (calcSim : List Rat → Rat)
    (model_id : String) (top_k : Nat) (min_relevance : Rat) : String :=
  numberedBlock (claimed_relevant_items st calcSim model_id top_k min_relevance)

/-! ## Dictionary lemmas -/

theorem dinsert_cons_eq {α : Type} (d : List (String × α)) (k : String)
    (b v : α) :
    dinsert ((k, b) :: d) k v =
      (k, v) :: d.map (fun kv => if kv.1 = k then (k, v) else kv) := by
  simp [dinsert, List.find?]

theorem dinsert_cons_ne {α : Type} (d : List (String × α)) (a k : String)
    (b : α) (v : α) (h : a ≠ k) :
    dinsert ((a, b) :: d) k v = (a, b) :: dinsert d k v := by
  simp [dinsert, List.find?, h]
  by_cases hs : (d.find? (fun kv => kv.1 = k)).isSome <;> simp [hs, h]

theorem find?_map_replace_ne {α : Type} (d : List (String × α)) (k l : String)
    (v : α) (h : l ≠ k) :
    (d.map (fun kv => if kv.1 = k then (k, v) else kv)).find?
        (fun kv => kv.1 = l) =
      d.find? (fun kv => kv.1 = l) := by
  induction d with
  | nil => simp
  | cons hd tl ih =>
    by_cases hk : hd.1 = k
    · have : ¬ (k = l) := fun hc => h hc.symm
      simp [List.find?, hk, this, Ne.symm h, ih]
    · by_cases hl : hd.1 = l
      · simp [List.find?, hk, hl, h]
      · simp [List.find?, hk, hl, ih]

theorem dget?_dinsert_self {α : Type} (d : List (String × α)) (k : String)
    (v : α) : dget? (dinsert d k v) k = some v := by
  induction d with
  | nil => simp [dinsert, dget?, List.find?]
  | cons hd tl ih =>
    obtain ⟨a, b⟩ := hd
    by_cases h : a = k
    · subst h
      rw [dinsert_cons_eq]
      simp [dget?, List.find?]
    · rw [dinsert_cons_ne _ _ _ _ _ h]
      simpa [dget?, List.find?, h] using ih

theorem dget?_dinsert_ne {α : Type} (d : List (String × α)) (k l : String)
    (v : α) (h : l ≠ k) : dget? (dinsert d k v) l = dget? d l := by
  induction d with
  | nil => simp [dinsert, dget?, List.find?, h, Ne.symm h]
  | cons hd tl ih =>
    obtain ⟨a, b⟩ := hd
    by_cases hk : a = k
    · subst hk
      rw [dinsert_cons_eq]
      simp [dget?, List.find?, Ne.symm h, h, find?_map_replace_ne _ _ _ _ h]
    · rw [dinsert_cons_ne _ _ _ _ _ hk]
      by_cases hl : a = l
      · simp [dget?, List.find?, hl]
      · simpa [dget?, List.find?, hl] using ih

theorem dkeys_map_replace {α : Type} (d : List (String × α)) (k : String)
    (v : α) :
    dkeys (d.map (fun kv => if kv.1 = k then (k, v) else kv)) = dkeys d := by
  unfold dkeys
  rw [List.map_map]
  apply List.map_congr_left
  intro kv _
  by_cases hk : kv.1 = k <;> simp [hk]

theorem dkeys_dinsert_not_mem {α : Type} (d : List (String × α)) (k : String)
    (v : α) (h : k ∉ dkeys d) : dkeys (dinsert d k v) = dkeys d ++ [k] := by
  unfold dkeys at h
  have hfind : d.find? (fun kv => kv.1 = k) = none := by
    rw [List.find?_eq_none]
    intro kv hkv
    simp only [decide_eq_true_eq]
    intro hc
    exact h (hc ▸ List.mem_map_of_mem (fun kv => kv.1) hkv)
  simp [dinsert, hfind, dkeys]

theorem dkeys_dinsert_mem {α : Type} (d : List (String × α)) (k : String)
    (v : α) (h : k ∈ dkeys d) : dkeys (dinsert d k v) = dkeys d := by
  have hmem := h
  unfold dkeys at hmem
  obtain ⟨kv, hkv, hk⟩ := List.mem_map.mp hmem
  have hs : (d.find? (fun kv => kv.1 = k)).isSome = true := by
    rw [List.find?_isSome]
    exact ⟨kv, hkv, by simp [hk]⟩
  simp [dinsert, hs, dkeys_map_replace]

theorem dget?_mem {α : Type} {d : List (String × α)} {k : String} {v : α}
    (h : dget? d k = some v) : (k, v) ∈ d := by
  unfold dget? at h
  obtain ⟨kv, hfind, hv⟩ := Option.map_eq_some'.mp h
  have hmem := List.mem_of_find?_eq_some hfind
  have hp := List.find?_some hfind
  simp only [decide_eq_true_eq] at hp
  obtain ⟨k1, v1⟩ := kv
  simp only at hp hv
  subst hp; subst hv
  exact hmem

theorem dget?_map_val {α β : Type} (d : List (String × α)) (f : α → β)
    (k : String) :
    dget? (d.map (fun kv => (kv.1, f kv.2))) k = (dget? d k).map f := by
  induction d with
  | nil => simp [dget?]
  | cons hd tl ih =>
    by_cases hk : hd.1 = k
    · simp [dget?, List.find?, hk]
    · simpa [dget?, List.find?, hk] using ih

theorem dkeys_map_val {α β : Type} (d : List (String × α)) (f : α → β) :
    dkeys (d.map (fun kv => (kv.1, f kv.2))) = dkeys d := by
  induction d with
  | nil => simp [dkeys]
  | cons hd tl ih => simp [dkeys]

/-! ## Planner lemmas and claim C1 -/

theorem plannerStep_gateway_error (invoke : String → Except String String)
    (jloads : String → Option JVal) (thread_id : String) (now : Nat)
    (st : ThreadStore) (m e : String) (h : invoke m = Except.error e) :
    plannerStep invoke jloads thread_id now st m = (plannerSentinel m e, st) := by
  simp [plannerStep, plannerParse, h]

theorem plannerRunAux_keys (invoke : String → Except String String)
    (jloads : String → Option JVal) (thread_id : String) (now : Nat) :
    ∀ (ms : List String) (acc : List (String × PlannerOutput))
      (st : ThreadStore), ms.Nodup → (∀ m ∈ ms, m ∉ dkeys acc) →
      dkeys (plannerRunAux invoke jloads thread_id now acc ms st).1 =
        dkeys acc ++ ms := by
  intro ms
  induction ms with
  | nil => intro acc st _ _; simp [plannerRunAux, dkeys]
  | cons m rest ih =>
    intro acc st hnd hacc
    simp only [plannerRunAux]
    have hm : m ∉ dkeys acc := hacc m (by simp)
    have hkeys := dkeys_dinsert_not_mem acc m
      (plannerStep invoke jloads thread_id now st m).1 hm
    have hrest : ∀ x ∈ rest,
        x ∉ dkeys (dinsert acc m
          (plannerStep invoke jloads thread_id now st m).1) := by
      intro x hx
      rw [hkeys]
      simp only [List.mem_append, List.mem_singleton]
      rintro (hca | hcb)
      · exact hacc x (by simp [hx]) hca
      · exact (List.nodup_cons.mp hnd).1 (hcb ▸ hx)
    rw [ih _ _ (List.nodup_cons.mp hnd).2 hrest, hkeys]
    simp

theorem plannerRunAux_get_not_mem (invoke : String → Except String String)
    (jloads : String → Option JVal) (thread_id : String) (now : Nat) :
    ∀ (ms : List String) (acc : List (String × PlannerOutput))
      (st : ThreadStore) (m : String), m ∉ ms →
      dget? (plannerRunAux invoke jloads thread_id now acc ms st).1 m =
        dget? acc m := by
  intro ms
  induction ms with
  | nil => intro acc st m _; simp [plannerRunAux]
  | cons m0 rest ih =>
    intro acc st m hm
    simp only [plannerRunAux]
    have hne : m ≠ m0 := fun hc => hm (by simp [hc])
    rw [ih _ _ _ (fun hc => hm (by simp [hc]))]
    exact dget?_dinsert_ne _ _ _ _ hne

theorem plannerRunAux_get_gateway_error (invoke : String → Except String String)
    (jloads : String → Option JVal) (thread_id : String) (now : Nat) :
    ∀ (ms : List String) (acc : List (String × PlannerOutput))
      (st : ThreadStore) (m e : String), ms.Nodup → m ∈ ms →
      invoke m = Except.error e →
      dget? (plannerRunAux invoke jloads thread_id now acc ms st).1 m =
        some (plannerSentinel m e) := by
  intro ms
  induction ms with
  | nil => intro _ _ m _ _ h; exact absurd h (List.not_mem_nil m)
  | cons m0 rest ih =>
    intro acc st m e hnd hm hinv
    simp only [plannerRunAux]
    by_cases heq : m = m0
    · subst heq
      rw [plannerStep_gateway_error invoke jloads thread_id now st m e hinv]
      rw [plannerRunAux_get_not_mem invoke jloads thread_id now rest _ _ m
        (List.nodup_cons.mp hnd).1]
      exact dget?_dinsert_self _ _ _
    · exact ih _ _ m e (List.nodup_cons.mp hnd).2
        ((List.mem_cons.mp hm).resolve_left heq) hinv

/-- C1.  For every round, the Planner's output mapping has exactly one
`ModelCompletion` (`PlannerOutput`) entry per requested model — its key
list is exactly the requested model list, so N requested identifiers give
N entries — regardless of which gateway calls fail; and a gateway failure
for model X (`invoke X` raising `e`) yields an entry for X whose text is
the error sentinel `"[ERROR] " + str(e)` and whose metrics are zeroed
(`response_time = 0`, `metrics = {}`, `safety = None`), never a dropped
key or an aborted round. -/
theorem planner_one_completion_per_model
    (invoke : String → Except String String)
    (jloads : String → Option JVal) (thread_id : String) (now : Nat)
    (models : List String) (st : ThreadStore) (hnd : models.Nodup) :
    dkeys (plannerRun invoke jloads thread_id now models st).1 = models ∧
    ∀ m e, m ∈ models → invoke m = Except.error e →
      dget? (plannerRun invoke jloads thread_id now models st).1 m =
        some (plannerSentinel m e) := by
  constructor
  · simpa [dkeys] using
      plannerRunAux_keys invoke jloads thread_id now models [] st hnd
        (by intro m _; simp [dkeys])
  · intro m e hm hinv
    exact plannerRunAux_get_gateway_error invoke jloads thread_id now models
      [] st m e hnd hm hinv

/-- Gateway oracle for the C1 witness: model `"b"` raises, model `"a"`
returns a (malformed) payload. -/
def c1Invoke : String → Except String String :=
  fun m => if m = "b" then Except.error "boom" else Except.ok "payload"

/-- `json.loads` oracle for the C1 witness. -/
def c1Jloads : String → Option JVal := fun _ => none

theorem planner_one_completion_per_model_witness :
    dkeys (plannerRun c1Invoke c1Jloads "t" 0 ["a", "b"] []).1 = ["a", "b"] ∧
    dget? (plannerRun c1Invoke c1Jloads "t" 0 ["a", "b"] []).1 "b" =
      some (plannerSentinel "b" "boom") := by
  have h := planner_one_completion_per_model c1Invoke c1Jloads "t" 0
    ["a", "b"] [] (by decide)
  exact ⟨h.1, h.2 "b" "boom" (by decide) rfl⟩

/-! ## Claim C3: event dispatch -/

/-- Planner output whose model `"m"` carries a safety verdict. -/
def c3Planner1 : List (String × PlannerOutput) :=
  [("m", { model_id := "m", content := "hello", response_time := 1,
           metrics := [], safety := JVal.obj [("flagged", JVal.bool true)] })]

/-- The same planner output with the safety verdict removed. -/
def c3Planner2 : List (String × PlannerOutput) :=
  [("m", { model_id := "m", content := "hello", response_time := 1,
           metrics := [], safety := JVal.null })]

/-- C3 counterexample.  The claim says each published event carries "the
complete ModelCompletion data for every model"; but two rounds whose
completions differ in the `safety` verdict (and, likewise, in the
standalone `response_time` field) publish byte-identical events — the
orchestrator copies only `content` and `metrics` into
`aggregated_responses` — so the events do not carry the complete
completion data. -/
theorem orchestrator_events_drop_safety :
    orchestratorEvents c3Planner1 "s" "t" "1" "p" "ts" =
      orchestratorEvents c3Planner2 "s" "t" "1" "p" "ts" ∧
    c3Planner1 ≠ c3Planner2 := by
  exact ⟨rfl, by decide⟩

/-- C3 (amended).  For every completed round the orchestrator publishes
exactly three events, one per agent kind (reflection, evaluator, judge),
each carrying one entry per model of the round with that model's
completion `content` and `metrics` (but not the standalone latency or
safety fields), together with the session, thread, use-case flag, prompt
and timestamp. -/
theorem orchestrator_publishes_three_full_events
    (po : List (String × PlannerOutput))
    (session thread uc prompt ts : String) :
    (orchestratorEvents po session thread uc prompt ts).length = 3 ∧
    (orchestratorEvents po session thread uc prompt ts).map
        (fun e => e.agent) = ["reflection", "evaluator", "judge"] ∧
    ∀ e ∈ orchestratorEvents po session thread uc prompt ts,
      dkeys e.responses = dkeys po ∧
      (∀ m out, dget? po m = some out →
        dget? e.responses m = some ⟨out.content, out.metrics⟩) ∧
      e.session_id = session ∧ e.thread_id = thread ∧
      e.use_case_id = uc ∧ e.prompt = prompt ∧ e.timestamp = ts := by
  refine ⟨rfl, rfl, ?_⟩
  intro e he
  simp [orchestratorEvents] at he
  rcases he with h | h | h <;> subst h <;>
    refine ⟨dkeys_map_val po
        (fun o : PlannerOutput => (⟨o.content, o.metrics⟩ : RespEntry)),
      fun m out hmo => ?_, rfl, rfl, rfl, rfl, rfl⟩ <;>
    · have h2 := dget?_map_val po
        (fun o : PlannerOutput => (⟨o.content, o.metrics⟩ : RespEntry)) m
      rw [hmo] at h2
      simpa using h2

theorem orchestrator_publishes_three_full_events_witness :
    dget? (EventPayload.mk "reflection" "s" "t" "1" "p"
        (aggregatedResponses c3Planner1) "ts").responses "m" =
      some ⟨"hello", []⟩ := by
  have h := orchestrator_publishes_three_full_events c3Planner1
    "s" "t" "1" "p" "ts"
  exact (h.2.2 _ (by decide)).2.1 "m"
    { model_id := "m", content := "hello", response_time := 1,
      metrics := [], safety := JVal.obj [("flagged", JVal.bool true)] }
    (by decide)

/-! ## Claim C5: the results endpoint on an empty round -/

/-- C5 counterexample.  The claim says `get_all(session_id="s1")` before
any consumer has run returns `{evaluator: null, judge: null, reflection:
null}` rather than an error; the endpoint instead raises HTTP 404
(`if not any(results.values())`). -/
theorem get_all_before_consumers_raises_404 :
    get_all_agent_results goodContainer ([] : AgentStore) "s1" none =
      HttpOutcome.httpError 404 "No agent results found for this session." ∧
    get_all_agent_results goodContainer ([] : AgentStore) "s1" none ≠
      HttpOutcome.ok
        [("evaluator", none), ("judge", none), ("reflection", none)] := by
  exact ⟨rfl, by decide⟩

/-- C5 (amended).  `get_all` always assembles one entry per agent kind, in
the order evaluator, judge, reflection, with missing kinds represented as
`None`; it returns that mapping when at least one kind has a truthy
`results` payload, and raises HTTP 404 when every kind is missing or
falsy — in particular before any consumer has run. -/
theorem get_all_results_shape {σ : Type} (C : Container σ) (st : σ)
    (session : String) (thread : Option String) :
    (collectAgentResults C st session thread).map Prod.fst =
      ["evaluator", "judge", "reflection"] ∧
    (∀ agent, agent ∈ (["evaluator", "judge", "reflection"] : List String) →
      dget? (collectAgentResults C st session thread) agent =
        some ((get_agent_result C st session agent thread).map
          (fun d => d.results))) ∧
    ((∃ kv ∈ collectAgentResults C st session thread, pyTruthy kv.2) →
      get_all_agent_results C st session thread =
        HttpOutcome.ok (collectAgentResults C st session thread)) ∧
    ((∀ kv ∈ collectAgentResults C st session thread, ¬ pyTruthy kv.2) →
      get_all_agent_results C st session thread =
        HttpOutcome.httpError 404
          "No agent results found for this session.") := by
  refine ⟨rfl, ?_, ?_, ?_⟩
  · intro agent hag
    fin_cases hag <;> rfl
  · intro hex
    unfold get_all_agent_results
    have hall : (collectAgentResults C st session thread).all
        (fun kv => !(pyTruthy kv.2)) = false := by
      rw [List.all_eq_false]
      obtain ⟨kv, hkv, ht⟩ := hex
      exact ⟨kv, hkv, by simp [ht]⟩
    simp [hall]
  · intro hnone
    unfold get_all_agent_results
    have hall : (collectAgentResults C st session thread).all
        (fun kv => !(pyTruthy kv.2)) = true := by
      rw [List.all_eq_true]
      intro kv hkv
      simp [hnone kv hkv]
    simp [hall]

/-- A store holding only an evaluator record for session `"s1"`. -/
def c5Store : AgentStore :=
  [{ id := "evaluator-s1", session_id := "s1", thread_id := "t1",
     agent := "evaluator", use_case_id := JVal.str "1",
     results := JVal.obj [("gpt4", JVal.num 1)], timestamp := JVal.num 5,
     lastUpdated := some (JVal.num 5) }]

theorem get_all_results_shape_witness :
    (collectAgentResults goodContainer c5Store "s1" none).map Prod.fst =
      ["evaluator", "judge", "reflection"] ∧
    get_all_agent_results goodContainer c5Store "s1" none =
      HttpOutcome.ok (collectAgentResults goodContainer c5Store "s1" none) := by
  have h := get_all_results_shape goodContainer c5Store "s1" none
  refine ⟨h.1, h.2.2.1 ?_⟩
  exact ⟨("evaluator", some (JVal.obj [("gpt4", JVal.num 1)])),
    by decide, by decide⟩

/-! ## Claim C9: store failure reporting -/

/-- C9 counterexample.  The claim says a failed store read is
distinguishable by the caller from a successful read that found nothing;
but `get_agent_result` returns `None` when the underlying query raises
(its `except` branch), the very value a successful read returns on an
empty store — the two calls below are indistinguishable. -/
theorem failed_read_indistinguishable_from_empty :
    get_agent_result (failContainer "ServiceUnavailable") () "s1" "evaluator"
        none = none ∧
    get_agent_result goodContainer ([] : AgentStore) "s1" "evaluator" none =
      none := by
  exact ⟨rfl, rfl⟩

/-- C9 (amended).  Write failures are reported to the caller as an error
status object: whichever container operation of
`save_agent_results` raises — the read, the replace or the create — the
function returns a `status: "error"` dict rather than raising or silently
succeeding.  Read failures, however, are swallowed at the store boundary:
`get_agent_result` returns `None` when its query raises, indistinguishable
from a successful read that found nothing. -/
theorem store_failure_reporting {σ : Type} (C : Container σ) (st : σ)
    (session thread agent uc : String) (results : JVal) (now : Nat)
    (tq : Option String) :
    (∀ m, C.readItem st (agent ++ "-" ++ sanitizeId session) session =
        CosRes.err m →
      (save_agent_results C st session thread agent uc results now).1 =
        AgentSaveStatus.errorStatus m) ∧
    (∀ m ex st',
      C.readItem st (agent ++ "-" ++ sanitizeId session) session =
        CosRes.ok ex →
      C.replaceItem st (agent ++ "-" ++ sanitizeId session)
          { id := agent ++ "-" ++ sanitizeId session, session_id := session,
            thread_id := thread, agent := agent,
            use_case_id := JVal.str uc, results := results,
            timestamp := ex.timestamp,
            lastUpdated := some (JVal.num now) } = (CosRes.err m, st') →
      (save_agent_results C st session thread agent uc results now).1 =
        AgentSaveStatus.errorStatus m) ∧
    (∀ m st',
      C.readItem st (agent ++ "-" ++ sanitizeId session) session =
        CosRes.notFound →
      C.createItem st
          { id := agent ++ "-" ++ sanitizeId session, session_id := session,
            thread_id := thread, agent := agent,
            use_case_id := JVal.str uc, results := results,
            timestamp := JVal.num now,
            lastUpdated := some (JVal.num now) } = (CosRes.err m, st') →
      (save_agent_results C st session thread agent uc results now).1 =
        AgentSaveStatus.errorStatus m) ∧
    (∀ m, C.queryItems st session agent tq = CosRes.err m →
      get_agent_result C st session agent tq = none) := by
  refine ⟨?_, ?_, ?_, ?_⟩
  · intro m h
    simp [save_agent_results, h]
  · intro m ex st' hread hrepl
    simp [save_agent_results, hread, hrepl]
  · intro m st' hread hcreate
    simp [save_agent_results, hread, hcreate]
  · intro m h
    simp [get_agent_result, h]

theorem store_failure_reporting_witness :
    (save_agent_results (failContainer "down") () "s1" "t1" "evaluator" "1"
        JVal.null 0).1 = AgentSaveStatus.errorStatus "down" ∧
    get_agent_result (failContainer "down") () "s1" "evaluator" none =
      none := by
  have h := store_failure_reporting (failContainer "down") () "s1" "t1"
    "evaluator" "1" JVal.null 0 none
  exact ⟨h.1 "down" rfl, h.2.2.2 "down" rfl⟩

/-! ## Claim C2: consumer persistence on re-delivery -/

/-- A well-formed evaluator event. -/
def c2Event : AgentEvent :=
  { agent := some "evaluator", session_id := some "s1",
    thread_id := some "t1", use_case_id := some "1", prompt := some "hi",
    responses := some [("gpt4", JVal.obj [("content", JVal.str "x")])],
    timestamp := some "ts" }

/-- Agent block oracle delivering the first run's results. -/
def c2Block1 : AgentEvent → Except String JVal :=
  fun _ => Except.ok (JVal.str "r1")

/-- Agent block oracle delivering a (different) second run's results. -/
def c2Block2 : AgentEvent → Except String JVal :=
  fun _ => Except.ok (JVal.str "r2")

/-- C2.  The consumer's write is `create_item`, not an idempotent upsert:
on the first delivery of an event the record is created, but processing
the same event a second time hits the Cosmos conflict on the duplicate
`id`, which the catch-all `except` swallows — the second delivery is
treated as an error, not as a no-op-safe upsert, and its results (`"r2"`)
are discarded, leaving the first payload (`"r1"`) in the store.  The
idempotent `CosmosService.save_agent_results` exists for exactly this
write but is never called by `process_agent_event`. -/
theorem redelivered_event_hits_create_conflict :
    (process_agent_event goodContainer c2Block1 "now" [] c2Event).1 =
      ProcOutcome.completed ∧
    (process_agent_event goodContainer c2Block1 "now" [] c2Event).2 =
      [{ id := "evaluator-s1", session_id := "s1", thread_id := "t1",
         agent := "evaluator", use_case_id := JVal.str "1",
         results := JVal.str "r1", timestamp := JVal.str "ts",
         lastUpdated := none }] ∧
    (process_agent_event goodContainer c2Block2 "now"
        (process_agent_event goodContainer c2Block1 "now" [] c2Event).2
        c2Event).1 = ProcOutcome.errorCaught "Conflict" ∧
    (process_agent_event goodContainer c2Block2 "now"
        (process_agent_event goodContainer c2Block1 "now" [] c2Event).2
        c2Event).2 =
      (process_agent_event goodContainer c2Block1 "now" [] c2Event).2 := by
  refine ⟨rfl, by decide, by decide, by decide⟩

/-! ## Claim C4: upsert idempotence of the aggregation store -/

theorem find?_append_of_none {α : Type} (l1 l2 : List α) (p : α → Bool)
    (h : l1.find? p = none) : (l1 ++ l2).find? p = l2.find? p := by
  induction l1 with
  | nil => simp
  | cons a l ih =>
    cases hp : p a with
    | true => simp [List.find?, hp] at h
    | false =>
      simp only [List.cons_append, List.find?, hp] at h ⊢
      exact ih h

theorem map_id_of_no_match (st : AgentStore) (doc_id session : String)
    (doc : AgentDoc) (h : ∀ d ∈ st, agentKeyMatch doc_id session d = false) :
    st.map (fun d => if agentKeyMatch doc_id session d then doc else d) =
      st := by
  conv_rhs => rw [← List.map_id st]
  apply List.map_congr_left
  intro d hd
  simp [h d hd]

theorem filter_eq_nil_of_no_match (st : AgentStore) (doc_id session : String)
    (h : ∀ d ∈ st, agentKeyMatch doc_id session d = false) :
    st.filter (agentKeyMatch doc_id session) = [] := by
  induction st with
  | nil => rfl
  | cons d l ih =>
    have hd : agentKeyMatch doc_id session d = false := h d (by simp)
    have hl : ∀ x ∈ l, agentKeyMatch doc_id session x = false :=
      fun x hx => h x (by simp [hx])
    simp [List.filter_cons, hd, ih hl]

theorem save_agent_results_not_found (st : AgentStore)
    (session thread agent uc : String) (results : JVal) (now : Nat)
    (hfind : st.find?
      (agentKeyMatch (agent ++ "-" ++ sanitizeId session) session) = none) :
    save_agent_results goodContainer st session thread agent uc results now =
      (AgentSaveStatus.created, st ++
        ([{ id := agent ++ "-" ++ sanitizeId session, session_id := session,
            thread_id := thread, agent := agent, use_case_id := JVal.str uc,
            results := results, timestamp := JVal.num now,
            lastUpdated := some (JVal.num now) }] : AgentStore)) := by
  simp only [save_agent_results, goodContainer]
  rw [hfind]
  rfl

theorem save_agent_results_found (st : AgentStore)
    (session thread agent uc : String) (results : JVal) (now : Nat)
    (existing : AgentDoc)
    (hfind : st.find?
        (agentKeyMatch (agent ++ "-" ++ sanitizeId session) session) =
      some existing) :
    save_agent_results goodContainer st session thread agent uc results now =
      (AgentSaveStatus.updated,
        st.map (fun d =>
          if agentKeyMatch (agent ++ "-" ++ sanitizeId session) session d then
            { id := agent ++ "-" ++ sanitizeId session,
              session_id := session, thread_id := thread, agent := agent,
              use_case_id := JVal.str uc, results := results,
              timestamp := existing.timestamp,
              lastUpdated := some (JVal.num now) }
          else d)) := by
  simp only [save_agent_results, goodContainer]
  rw [hfind]

/-- C4.  Starting from a store with no record under the
`(session_id, agent_kind)` key, calling the upsert twice with different
payloads leaves exactly one record under that key: its `results` is the
second call's payload and its creation `timestamp` is the first write's
time `t1` (while `lastUpdated` moves to `t2`).  The first call reports
`created`, the second `updated`. -/
theorem save_agent_results_idempotent_upsert (st : AgentStore)
    (session thread1 thread2 agent uc1 uc2 : String) (r1 r2 : JVal)
    (t1 t2 : Nat)
    (h : ∀ d ∈ st,
      agentKeyMatch (agent ++ "-" ++ sanitizeId session) session d = false) :
    (save_agent_results goodContainer st session thread1 agent uc1 r1
        t1).1 = AgentSaveStatus.created ∧
    (save_agent_results goodContainer
        (save_agent_results goodContainer st session thread1 agent uc1 r1
          t1).2 session thread2 agent uc2 r2 t2).1 =
      AgentSaveStatus.updated ∧
    ((save_agent_results goodContainer
        (save_agent_results goodContainer st session thread1 agent uc1 r1
          t1).2 session thread2 agent uc2 r2 t2).2).filter
        (agentKeyMatch (agent ++ "-" ++ sanitizeId session) session) =
      [{ id := agent ++ "-" ++ sanitizeId session, session_id := session,
         thread_id := thread2, agent := agent, use_case_id := JVal.str uc2,
         results := r2, timestamp := JVal.num t1,
         lastUpdated := some (JVal.num t2) }] := by
  have hfind : st.find?
      (agentKeyMatch (agent ++ "-" ++ sanitizeId session) session) = none := by
    rw [List.find?_eq_none]
    intro d hd
    simp [h d hd]
  have e1 := save_agent_results_not_found st session thread1 agent uc1 r1 t1
    hfind
  rw [e1]
  have hfind2 := find?_append_of_none st
    ([{ id := agent ++ "-" ++ sanitizeId session, session_id := session,
        thread_id := thread1, agent := agent, use_case_id := JVal.str uc1,
        results := r1, timestamp := JVal.num t1,
        lastUpdated := some (JVal.num t1) }] : AgentStore)
    (agentKeyMatch (agent ++ "-" ++ sanitizeId session) session) hfind
  have hm1 : agentKeyMatch (agent ++ "-" ++ sanitizeId session) session
      { id := agent ++ "-" ++ sanitizeId session, session_id := session,
        thread_id := thread1, agent := agent, use_case_id := JVal.str uc1,
        results := r1, timestamp := JVal.num t1,
        lastUpdated := some (JVal.num t1) } = true := by
    simp [agentKeyMatch]
  rw [List.find?_cons_of_pos _ hm1] at hfind2
  have e2 := save_agent_results_found _ session thread2 agent uc2 r2 t2 _
    hfind2
  rw [e2]
  refine ⟨rfl, rfl, ?_⟩
  rw [List.map_append, map_id_of_no_match st _ _ _ h]
  rw [List.filter_append, filter_eq_nil_of_no_match st _ _ h]
  simp [agentKeyMatch]

theorem save_agent_results_idempotent_upsert_witness :
    (save_agent_results goodContainer ([] : AgentStore) "s1" "t1" "evaluator"
        "1" (JVal.str "r1") 10).1 = AgentSaveStatus.created ∧
    (save_agent_results goodContainer
        (save_agent_results goodContainer ([] : AgentStore) "s1" "t1"
          "evaluator" "1" (JVal.str "r1") 10).2 "s1" "t2" "evaluator" "2"
        (JVal.str "r2") 20).1 = AgentSaveStatus.updated ∧
    ((save_agent_results goodContainer
        (save_agent_results goodContainer ([] : AgentStore) "s1" "t1"
          "evaluator" "1" (JVal.str "r1") 10).2 "s1" "t2" "evaluator" "2"
        (JVal.str "r2") 20).2).filter
        (agentKeyMatch ("evaluator" ++ "-" ++ sanitizeId "s1") "s1") =
      [{ id := "evaluator" ++ "-" ++ sanitizeId "s1", session_id := "s1",
         thread_id := "t2", agent := "evaluator",
         use_case_id := JVal.str "2", results := JVal.str "r2",
         timestamp := JVal.num 10, lastUpdated := some (JVal.num 20) }] := by
  exact save_agent_results_idempotent_upsert [] "s1" "t1" "t2" "evaluator"
    "1" "2" (JVal.str "r1") (JVal.str "r2") 10 20 (by simp)

/-! ## Claim C6: the parser never raises -/

/-- C6.  For every input text and every behaviour of the `json.loads`
oracle, `_extract_scores` — with its outer exception handlers — returns a
result rather than raising; and when every stage of the fallback chain
fails (no candidate, both parse strategies fail, the manual
reconstruction recovers nothing), the result is the empty score set. -/
theorem judge_extract_scores_total (jloads : String → Option JVal)
    (result_str : String) :
    (∃ r, extract_scores jloads result_str = Except.ok r) ∧
    (allStagesFail jloads result_str →
      extract_scores jloads result_str = Except.ok []) := by
  constructor
  · unfold extract_scores
    cases h : extract_scores_run jloads result_str with
    | ok r => exact ⟨r, rfl⟩
    | error e => exact ⟨[], rfl⟩
  · intro hall
    have hrun : extract_scores_run jloads result_str = Except.ok [] := by
      unfold extract_scores_run
      cases h3 : step3Candidate result_str.data with
      | none => rfl
      | some c =>
        obtain ⟨h1, h2, h4⟩ := hall c h3
        simp only [h1, h2, h4]
        rfl
    unfold extract_scores
    rw [hrun]

/-- `json.loads` oracle that always fails, for the C6 witness. -/
def c6Jloads : String → Option JVal := fun _ => none

theorem judge_extract_scores_total_witness :
    extract_scores c6Jloads "x \x7b y \x7d z" = Except.ok [] := by
  refine (judge_extract_scores_total c6Jloads "x \x7b y \x7d z").2 ?_
  intro c hc
  have hstep : step3Candidate ("x \x7b y \x7d z").data =
      some ("\x7b y \x7d".data) := by decide
  rw [hstep] at hc
  have hceq : c = "\x7b y \x7d".data := (Option.some.inj hc).symm
  subst hceq
  exact ⟨rfl, rfl, by decide⟩

/-! ## Claim C10: stage-4 reconstruction assigns one score map to all models -/

theorem mem_dinsert {α : Type} (d : List (String × α)) (k : String) (v : α) :
    ∀ kv ∈ dinsert d k v, kv ∈ d ∨ kv = (k, v) := by
  intro kv hkv
  unfold dinsert at hkv
  by_cases hs : (d.find? (fun kv => kv.1 = k)).isSome
  · simp only [hs, if_true] at hkv
    obtain ⟨kv0, hkv0, heq⟩ := List.mem_map.mp hkv
    by_cases hk : kv0.1 = k
    · right
      simp only [hk, if_true] at heq
      exact heq.symm
    · left
      simp only [hk, if_false] at heq
      exact heq ▸ hkv0
  · simp only [hs, if_false] at hkv
    rcases List.mem_append.mp hkv with hm | hm
    · exact Or.inl hm
    · exact Or.inr (by simpa using hm)

theorem stage4_values (content : List Char) :
    ∀ kv ∈ stage4 content, kv.2 = dimScores content := by
  suffices hgen : ∀ (ids : List String)
      (acc : List (String × List (String × Int))),
      (∀ kv ∈ acc, kv.2 = dimScores content) →
      ∀ kv ∈ ids.foldl (fun acc model_id =>
        let scores := dimScores content
        if scores.isEmpty then acc else dinsert acc model_id scores) acc,
      kv.2 = dimScores content by
    intro kv hkv
    exact hgen (headerModels content) [] (by simp) kv hkv
  intro ids
  induction ids with
  | nil =>
    intro acc hacc kv hkv
    exact hacc kv (by simpa [List.foldl] using hkv)
  | cons i rest ih =>
    intro acc hacc kv hkv
    rw [List.foldl_cons] at hkv
    refine ih _ ?_ kv hkv
    intro kv2 hkv2
    by_cases hs : (dimScores content).isEmpty
    · simp only [hs, if_true] at hkv2
      exact hacc kv2 hkv2
    · simp only [hs, if_false] at hkv2
      rcases mem_dinsert acc i (dimScores content) kv2 hkv2 with hm | hm
      · exact hacc kv2 hm
      · rw [hm]

/-- C10.  Whenever the stage-4 regex reconstruction recovers entries for
two (or more) discovered model-id headers, the two entries carry the
identical dimension-score map: the `"<metric>": <integer>` scan ranges
over the entire candidate text for each discovered model rather than over
that model's own block, so every model is assigned the same `scores`
dict. -/
theorem stage4_identical_scores (content : List Char) (m1 m2 : String)
    (v1 v2 : List (String × Int))
    (h1 : dget? (stage4 content) m1 = some v1)
    (h2 : dget? (stage4 content) m2 = some v2) : v1 = v2 := by
  have hv1 := stage4_values content (m1, v1) (dget?_mem h1)
  have hv2 := stage4_values content (m2, v2) (dget?_mem h2)
  simp only at hv1 hv2
  rw [hv1, hv2]

/-- Candidate text for the C10 witness: model `m1`'s own block says 8,
model `m2`'s block says 3, yet both recovered entries carry the score 3
(the last `"personalization"` match in the whole text wins for
everyone). -/
def c10Content : List Char :=
  ("\"m1\": \x7b \"personalization\": 8 \x7d , " ++
    "\"m2\": \x7b \"personalization\": 3 \x7d").data

theorem stage4_identical_scores_witness :
    dget? (stage4 c10Content) "m1" = some [("personalization", 3)] ∧
    dget? (stage4 c10Content) "m2" = some [("personalization", 3)] ∧
    ([("personalization", 3)] : List (String × Int)) =
      [("personalization", 3)] := by
  refine ⟨by decide, by decide, ?_⟩
  exact stage4_identical_scores c10Content "m1" "m2" _ _ (by decide)
    (by decide)

/-! ## Claim C8: assistant-turn deduplication -/

/-- A thread whose only message is a user turn with content `"X"`. -/
def c8Store : ThreadStore :=
  [{ id := "m-t", modelId := "m", created := 0,
     messages := [⟨"user", JVal.str "X", 0, JVal.num 0⟩],
     metadata := ⟨JVal.num 0, 0, JVal.num 0, JVal.num 0⟩ }]

/-- C8 counterexample.  The claim says an assistant turn is skipped only
when byte-identical to the immediately preceding *assistant* turn, and is
appended otherwise.  But the guard compares against the last message of
the thread regardless of its role: here the thread contains no assistant
message at all (its only message is a *user* turn with the same content),
yet the assistant turn is skipped as a duplicate and the store is left
unchanged. -/
theorem assistant_turn_skipped_against_user_turn :
    c8Store.all (fun d => d.messages.all (fun m => m.role == "user")) =
      true ∧
    save_conversation_message c8Store "m" "t" "assistant" (JVal.str "X")
        (JVal.num 0) 5 = (ConvSaveStatus.duplicateSkipped, c8Store) := by
  exact ⟨rfl, by decide⟩

/-- C8 (amended).  For an existing thread document, an assistant turn is
not appended exactly when the content of the last message of the thread —
of any role — is identical to the new content; otherwise (given the token
counters are numbers, so the `+=` updates do not raise) the assistant
turn is appended to the thread's message list. -/
theorem assistant_dedup_last_message (st : ThreadStore)
    (model_id thread_id : String) (content token_count : JVal) (now : Nat)
    (item : ThreadDoc)
    (hfind : threadRead? st (model_id ++ "-" ++ sanitizeId thread_id)
      model_id = some item) :
    ((∃ lastMsg, item.messages.getLast? = some lastMsg ∧
        lastMsg.content = content) →
      save_conversation_message st model_id thread_id "assistant" content
          token_count now = (ConvSaveStatus.duplicateSkipped, st)) ∧
    (∀ lastMsg tk ct, item.messages.getLast? = some lastMsg →
      lastMsg.content ≠ content →
      pyAddJ item.metadata.tokenCount token_count = Except.ok tk →
      pyAddJ item.metadata.completionTokens token_count = Except.ok ct →
      save_conversation_message st model_id thread_id "assistant" content
          token_count now =
        (ConvSaveStatus.updated,
          threadReplace st (model_id ++ "-" ++ sanitizeId thread_id) model_id
            { item with
              messages := item.messages ++
                [⟨"assistant", content, now, token_count⟩],
              metadata := ⟨tk, now, item.metadata.promptTokens, ct⟩ })) := by
  constructor
  · rintro ⟨lastMsg, hlast, hcnt⟩
    simp only [save_conversation_message, hfind]
    have hany : item.messages.getLast?.any
        (fun m => m.content == content) = true := by
      rw [hlast]
      simp [Option.any, hcnt]
    simp [hany]
  · intro lastMsg tk ct hlast hne htk hct
    simp only [save_conversation_message, hfind]
    have hany : item.messages.getLast?.any
        (fun m => m.content == content) = false := by
      rw [hlast]
      simpa [Option.any] using hne
    simp [hany, htk, hct]

instance exceptDecEq {e a : Type} [DecidableEq e] [DecidableEq a] :
    DecidableEq (Except e a) := fun x y =>
  match x, y with
  | Except.ok u, Except.ok v =>
    if h : u = v then Decidable.isTrue (by rw [h])
    else Decidable.isFalse (by simp [h])
  | Except.error u, Except.error v =>
    if h : u = v then Decidable.isTrue (by rw [h])
    else Decidable.isFalse (by simp [h])
  | Except.ok _, Except.error _ => Decidable.isFalse (by simp)
  | Except.error _, Except.ok _ => Decidable.isFalse (by simp)

/-- A thread whose last (and only) message is an assistant turn `"X"`. -/
def c8Doc : ThreadDoc :=
  { id := "m-t", modelId := "m", created := 0,
    messages := [⟨"assistant", JVal.str "X", 0, JVal.num 1⟩],
    metadata := ⟨JVal.num 1, 0, JVal.num 0, JVal.num 1⟩ }

/-- The store holding `c8Doc`. -/
def c8Store2 : ThreadStore := [c8Doc]

theorem assistant_dedup_last_message_witness :
    save_conversation_message c8Store2 "m" "t" "assistant" (JVal.str "X")
        (JVal.num 2) 9 = (ConvSaveStatus.duplicateSkipped, c8Store2) ∧
    save_conversation_message c8Store2 "m" "t" "assistant" (JVal.str "Y")
        (JVal.num 2) 9 =
      (ConvSaveStatus.updated,
        threadReplace c8Store2 "m-t" "m"
          { c8Doc with
            messages := c8Doc.messages ++
              [⟨"assistant", JVal.str "Y", 9, JVal.num 2⟩],
            metadata := ⟨JVal.num 3, 9, JVal.num 0, JVal.num 3⟩ }) := by
  have h1 := assistant_dedup_last_message c8Store2 "m" "t" (JVal.str "X")
    (JVal.num 2) 9 c8Doc (by decide)
  have h2 := assistant_dedup_last_message c8Store2 "m" "t" (JVal.str "Y")
    (JVal.num 2) 9 c8Doc (by decide)
  constructor
  · exact h1.1 ⟨⟨"assistant", JVal.str "X", 0, JVal.num 1⟩, by decide,
      by decide⟩
  · exact h2.2 ⟨"assistant", JVal.str "X", 0, JVal.num 1⟩ (JVal.num 3)
      (JVal.num 3) (by decide) (by decide)
      (by with_unfolding_all decide) (by with_unfolding_all decide)

/-! ## Claim C7: reflection memory retrieval -/

/-- Descending order on scored items (the sort key of `search_memory`). -/
def simGE (a b : ScoredItem) : Prop := b.similarity ≤ a.similarity

theorem mem_insertDesc (x : ScoredItem) (l : List ScoredItem) :
    ∀ a ∈ insertDesc x l, a = x ∨ a ∈ l := by
  induction l with
  | nil =>
    intro a ha
    simp only [insertDesc, List.mem_singleton] at ha
    exact Or.inl ha
  | cons y ys ih =>
    intro a ha
    unfold insertDesc at ha
    by_cases hcmp : x.similarity < y.similarity
    · simp only [hcmp, if_true] at ha
      rcases List.mem_cons.mp ha with h | h
      · exact Or.inr (by simp [h])
      · rcases ih a h with h2 | h2
        · exact Or.inl h2
        · exact Or.inr (by simp [h2])
    · simp only [hcmp, if_false] at ha
      rcases List.mem_cons.mp ha with h | h
      · exact Or.inl h
      · exact Or.inr h

theorem mem_sortDesc (l : List ScoredItem) : ∀ a ∈ sortDesc l, a ∈ l := by
  induction l with
  | nil => simp [sortDesc]
  | cons x xs ih =>
    intro a ha
    unfold sortDesc at ha
    rcases mem_insertDesc x (sortDesc xs) a ha with h | h
    · simp [h]
    · simp [ih a h]

theorem pairwise_insertDesc (x : ScoredItem) (l : List ScoredItem)
    (h : l.Pairwise simGE) : (insertDesc x l).Pairwise simGE := by
  induction l with
  | nil => simp [insertDesc]
  | cons y ys ih =>
    unfold insertDesc
    by_cases hcmp : x.similarity < y.similarity
    · simp only [hcmp, if_true]
      rw [List.pairwise_cons] at h ⊢
      refine ⟨?_, ih h.2⟩
      intro a ha
      rcases mem_insertDesc x ys a ha with h2 | h2
      · rw [h2]
        exact le_of_lt hcmp
      · exact h.1 a h2
    · simp only [hcmp, if_false]
      rw [List.pairwise_cons]
      constructor
      · intro a ha
        rcases List.mem_cons.mp ha with h2 | h2
        · rw [h2]
          exact le_of_not_lt hcmp
        · exact le_trans ((List.pairwise_cons.mp h).1 a h2)
            (le_of_not_lt hcmp)
      · exact h

theorem pairwise_sortDesc (l : List ScoredItem) :
    (sortDesc l).Pairwise simGE := by
  induction l with
  | nil => simp [sortDesc]
  | cons x xs ih => exact pairwise_insertDesc x (sortDesc xs) ih

theorem mem_scoredLoop (calcSim : List Rat → Rat) (limit : Nat) :
    ∀ (l : List VecDoc) (acc : List ScoredItem),
      ∀ x ∈ scoredLoop calcSim limit l acc,
        x ∈ acc ∨ ∃ d ∈ l, ∃ v, d.embedding = some v ∧
          x = scoredOf d (calcSim v) := by
  intro l
  induction l with
  | nil =>
    intro acc x hx
    exact Or.inl (by simpa [scoredLoop] using hx)
  | cons d rest ih =>
    intro acc x hx
    unfold scoredLoop at hx
    rcases hemb : d.embedding with _ | v
    · rw [hemb] at hx
      rcases ih acc x hx with h | ⟨d2, hd2, v2, hv2, hx2⟩
      · exact Or.inl h
      · exact Or.inr ⟨d2, by simp [hd2], v2, hv2, hx2⟩
    · rcases v with _ | ⟨a, tl⟩
      · rw [hemb] at hx
        rcases ih acc x hx with h | ⟨d2, hd2, v2, hv2, hx2⟩
        · exact Or.inl h
        · exact Or.inr ⟨d2, by simp [hd2], v2, hv2, hx2⟩
      · rw [hemb] at hx
        simp only at hx
        by_cases hlim :
            limit ≤ (acc ++ [scoredOf d (calcSim (a :: tl))]).length
        · rw [if_pos hlim] at hx
          rcases List.mem_append.mp hx with h | h
          · exact Or.inl h
          · refine Or.inr ⟨d, by simp, a :: tl, hemb, ?_⟩
            simpa using h
        · rw [if_neg hlim] at hx
          rcases ih _ x hx with h | ⟨d2, hd2, v2, hv2, hx2⟩
          · rcases List.mem_append.mp h with h2 | h2
            · exact Or.inl h2
            · refine Or.inr ⟨d, by simp, a :: tl, hemb, ?_⟩
              simpa using h2
          · exact Or.inr ⟨d2, by simp [hd2], v2, hv2, hx2⟩

/-- Similarity oracle for the C7 concrete inputs: the similarity of a
stored vector is its first coordinate. -/
def c7CalcSim : List Rat → Rat := fun v => v.headD 0

/-- Four records in thread `"t"` for model `"m"`, in store order: the
highest-similarity record (`d4`, similarity 0.95) comes last. -/
def c7Store : List VecDoc :=
  [{ id := "d1", collection := some "model-memory-m", model_id := some "m",
     thread_id := some "t", text := "t1", embedding := some [4 / 5] },
   { id := "d2", collection := some "model-memory-m", model_id := some "m",
     thread_id := some "t", text := "t2", embedding := some [1 / 10] },
   { id := "d3", collection := some "model-memory-m", model_id := some "m",
     thread_id := some "t", text := "t3", embedding := some [1 / 10] },
   { id := "d4", collection := some "model-memory-m", model_id := some "m",
     thread_id := some "t", text := "t4", embedding := some [19 / 20] }]

/-- C7 counterexample.  The claim says the consumer returns the records
with the highest similarity among ALL stored records whose similarity is
at least `min_relevance`.  But `search_memory` breaks out of its scoring
loop after the first `top_k` records in store iteration order and only
then sorts, so record `d4` (similarity 0.95, the highest, well above the
0.7 threshold) is never scored: the returned block contains only `t1`
(similarity 0.8) where the claimed behaviour would return `t4` then
`t1`. -/
theorem reflection_misses_highest_similarity :
    reflection_context c7Store c7CalcSim "t" 3 (7 / 10) = "[Memory][1] t1" ∧
    claimed_reflection_context c7Store c7CalcSim "m" 3 (7 / 10) =
      "[Memory][1] t4\n\n[Memory][2] t1" ∧
    reflection_context c7Store c7CalcSim "t" 3 (7 / 10) ≠
      claimed_reflection_context c7Store c7CalcSim "m" 3 (7 / 10) := by
  refine ⟨?_, ?_, ?_⟩ <;> with_unfolding_all decide

/-- C7 (amended).  The reflection consumer returns at most `top_k`
records, each with (rounded) similarity at least `min_relevance`, in
descending-similarity order, each originating from a stored record of the
*thread* (not the model collection); they are drawn from the first
`top_k` thread-scoped records with a non-empty embedding in store
iteration order, so they need not be the globally highest-similarity
qualifying records; and the context block is the empty string when no
drawn record qualifies. -/
theorem reflection_context_properties (st : List VecDoc)
    (calcSim : List Rat → Rat) (mcp_thread_id : String) (top_k : Nat)
    (min_relevance : Rat) :
    (relevant_items st calcSim mcp_thread_id top_k min_relevance).length ≤
      top_k ∧
    (∀ it ∈ relevant_items st calcSim mcp_thread_id top_k min_relevance,
      min_relevance ≤ it.similarity) ∧
    (relevant_items st calcSim mcp_thread_id top_k
      min_relevance).Pairwise simGE ∧
    (∀ it ∈ relevant_items st calcSim mcp_thread_id top_k min_relevance,
      ∃ d ∈ st, d.thread_id = some mcp_thread_id ∧
        ∃ v, d.embedding = some v ∧ it = scoredOf d (calcSim v)) ∧
    (relevant_items st calcSim mcp_thread_id top_k min_relevance = [] →
      reflection_context st calcSim mcp_thread_id top_k min_relevance =
        "") := by
  refine ⟨?_, ?_, ?_, ?_, ?_⟩
  · calc (relevant_items st calcSim mcp_thread_id top_k
          min_relevance).length
        ≤ ((sortDesc (scoredLoop calcSim top_k
            (st.filter (fun d => d.thread_id == some mcp_thread_id))
            [])).take top_k).length := by
          exact List.length_filter_le _ _
      _ ≤ top_k := List.length_take_le _ _
  · intro it hit
    have h2 := (List.mem_filter.mp hit).2
    simpa using h2
  · exact List.Pairwise.sublist
      ((List.filter_sublist _).trans (List.take_sublist _ _))
      (pairwise_sortDesc _)
  · intro it hit
    have h1 : it ∈ (sortDesc (scoredLoop calcSim top_k
        (st.filter (fun d => d.thread_id == some mcp_thread_id)) [])).take
        top_k := (List.mem_filter.mp hit).1
    have h2 := mem_sortDesc _ it ((List.take_sublist _ _).subset h1)
    rcases mem_scoredLoop calcSim top_k _ [] it h2 with h3 | ⟨d, hd, v, hv, he⟩
    · simp at h3
    · have hd2 := List.mem_filter.mp hd
      refine ⟨d, hd2.1, by simpa using hd2.2, v, hv, he⟩
  · intro h
    unfold reflection_context
    rw [h]
    rfl

theorem reflection_context_properties_witness :
    (relevant_items c7Store c7CalcSim "t" 3 (7 / 10)).length ≤ 3 ∧
    (7 / 10 : Rat) ≤ (ScoredItem.mk "d1" (some "model-memory-m") (some "m")
      (some "t") "t1" (4 / 5)).similarity := by
  have h := reflection_context_properties c7Store c7CalcSim "t" 3 (7 / 10)
  exact ⟨h.1, h.2.1 _ (by with_unfolding_all decide)⟩
